import Mathlib

/-!
Verification of the Trust-IoT allocation-and-trust engine
(`src/trustiot/core.py`, `src/trustiot/simulation.py`) against its
natural-language specification.

The embedding is a shallow one over exact rational arithmetic: Python floats
become `ℚ` (with `float('inf')` processing times modelled as `Option.none`),
Python dicts with insertion order become association lists, Python exceptions
become `Except Unit`, and `random.choice` becomes an explicit oracle
`rng : Nat → Nat → Nat` supplying an index per (iteration, device position).
`SensorTask`/`IoTEdgeModule` and `Mote`/`AzureIoTEdgeDevice` have verbatim
identical trust/utility logic in the source and are embedded once as
`Device`/`Server`.
-/

set_option maxHeartbeats 1000000

namespace TrustIoT

/-- Work item (`SensorTask` / `IoTEdgeModule` in `core.py`; both classes have
identical fields and methods for the logic under verification). `cpu_request`
is the resource demand, `trust_score` starts at 1.0 (honest) or 0.1
(malicious), `weight_latency = 0.8`, `weight_energy = 0.2`. -/
structure Device where
  id : Nat
  cpu_request : ℚ
  weight_latency : ℚ
  weight_energy : ℚ
  deadline : ℚ
  is_malicious : Bool
  trust_score : ℚ
  consecutive_rejections : Nat
deriving DecidableEq, Repr

/-- `SensorTask.calculate_utility` / `IoTEdgeModule.calculate_utility`:
`-(weight_latency * latency + weight_energy * energy)`. -/
def Device.calculate_utility (d : Device) (latency energy : ℚ) : ℚ :=
  -(d.weight_latency * latency + d.weight_energy * energy)

/-- `SensorTask.update_trust_score` / `IoTEdgeModule.update_trust_score`
(`core.py` lines 27-38 and 93-104, verbatim identical):
assigned+malicious increments `consecutive_rejections` and multiplies the
trust score by `0.90 - 0.05 * consecutive_rejections`, floored at `0.1`;
assigned+honest multiplies by `1.05`, capped at `1.0`, and resets the
counter; not assigned multiplies by `0.995` with no floor. -/
def Device.update_trust_score (d : Device) (is_assigned : Bool) : Device :=
  if is_assigned then
    if d.is_malicious then
      let cr := d.consecutive_rejections + 1
      { d with consecutive_rejections := cr,
               trust_score := max (1/10) (d.trust_score * (9/10 - (1/20) * (cr : ℚ))) }
    else
      { d with trust_score := min 1 (d.trust_score * (21/20)),
               consecutive_rejections := 0 }
  else
    { d with trust_score := d.trust_score * (199/200) }

/-- Host (`Mote` / `AzureIoTEdgeDevice` in `core.py`). `hosted` is the
`hosted_tasks` / `hosted_modules` list, `load_balancing_weight = 1.5`. -/
structure Server where
  id : Nat
  capacity_cpu : ℚ
  hosted : List Device
  load_balancing_weight : ℚ
deriving DecidableEq, Repr

/-- Host construction: a non-positive capacity input is replaced by `0.5`
(`capacity_cpu if capacity_cpu > 0 else 0.5`). -/
def mkServer (sid : Nat) (capacity_cpu : ℚ) : Server :=
  ⟨sid, if 0 < capacity_cpu then capacity_cpu else 1/2, [], 3/2⟩

/-- `Mote.get_current_cpu_load` / `AzureIoTEdgeDevice.get_current_cpu_load`:
`0` when the capacity is (Python-falsy) zero or nothing is hosted, else the
sum of hosted demands divided by the capacity. -/
def Server.get_current_cpu_load (s : Server) : ℚ :=
  if s.capacity_cpu = 0 ∨ s.hosted = [] then 0
  else (s.hosted.map (fun d => d.cpu_request)).sum / s.capacity_cpu

/-- `Mote.calculate_utility` / `AzureIoTEdgeDevice.calculate_utility`:
`0` for the empty candidate set, otherwise
`avg_trust - load_balancing_weight * potential_load ^ 2`. -/
def Server.calculate_utility (s : Server) (tasks_to_host : List Device) : ℚ :=
  if tasks_to_host = [] then 0
  else
    (tasks_to_host.map (fun d => d.trust_score)).sum / (tasks_to_host.length : ℚ)
      - s.load_balancing_weight
        * ((tasks_to_host.map (fun d => d.cpu_request)).sum / s.capacity_cpu) ^ 2

/-- A malicious work item sitting exactly at the trust floor. -/
def floorDevice : Device :=
  { id := 0, cpu_request := 1, weight_latency := 4/5, weight_energy := 1/5,
    deadline := 30, is_malicious := true, trust_score := 1/10,
    consecutive_rejections := 0 }

/-- C1 counterexample: the claim that the not-assigned decay step never takes
the trust score below the `0.1` floor is false — a work item whose score is
exactly `0.1` and which is not assigned ends the update with score
`0.0995 < 0.1` (the decay branch multiplies by `0.995` with no floor). -/
theorem trust_decay_breaks_floor :
    (floorDevice.update_trust_score false).trust_score < 1/10 := by
  norm_num [floorDevice, Device.update_trust_score]

/-- C1 (amended): one trust update keeps the score in `(0, 1]`; the
assigned-branch updates additionally preserve the `0.1` floor, while the
not-assigned branch is exactly multiplication by `0.995` (hence can leave
`[0.1, 1]` from the bottom). -/
theorem trust_score_bounds (d : Device) (b : Bool)
    (h0 : 0 < d.trust_score) (h1 : d.trust_score ≤ 1) :
    (0 < (d.update_trust_score b).trust_score
      ∧ (d.update_trust_score b).trust_score ≤ 1)
    ∧ (b = true → 1/10 ≤ d.trust_score →
        1/10 ≤ (d.update_trust_score b).trust_score)
    ∧ (b = false →
        (d.update_trust_score b).trust_score = d.trust_score * (199/200)) := by
  cases b with
  | false =>
    simp only [Device.update_trust_score, Bool.false_eq_true, if_false]
    refine ⟨⟨by positivity, by nlinarith⟩, by simp, by simp⟩
  | true =>
    cases hm : d.is_malicious with
    | false =>
      simp only [Device.update_trust_score, hm, eq_self_iff_true, if_true,
        Bool.false_eq_true, if_false]
      refine ⟨⟨?_, min_le_left _ _⟩, fun _ ht => ?_, by simp⟩
      · have h2 : 0 < d.trust_score * (21/20) := by positivity
        exact lt_min (by norm_num) h2
      · have h2 : (1:ℚ)/10 ≤ d.trust_score * (21/20) := by nlinarith
        exact le_min (by norm_num) h2
    | true =>
      have hcr : (1:ℚ) ≤ ((d.consecutive_rejections + 1 : Nat) : ℚ) := by
        exact_mod_cast Nat.one_le_iff_ne_zero.mpr (Nat.succ_ne_zero _)
      simp only [Device.update_trust_score, hm, eq_self_iff_true, if_true]
      refine ⟨⟨?_, ?_⟩, fun _ _ => le_max_left _ _, by simp⟩
      · exact lt_max_of_lt_left (by norm_num)
      · apply max_le (by norm_num)
        rcases le_total (9/10 - (1/20) * ((d.consecutive_rejections + 1 : Nat) : ℚ)) 0
          with hp | hp
        · nlinarith
        · nlinarith

/-- Witness for `trust_score_bounds` at the concrete malicious floor device. -/
theorem trust_score_bounds_witness :
    (0 < floorDevice.trust_score ∧ floorDevice.trust_score ≤ 1)
    ∧ ((0 < (floorDevice.update_trust_score true).trust_score
        ∧ (floorDevice.update_trust_score true).trust_score ≤ 1)
      ∧ (true = true → 1/10 ≤ floorDevice.trust_score →
          1/10 ≤ (floorDevice.update_trust_score true).trust_score)
      ∧ (true = false →
          (floorDevice.update_trust_score true).trust_score
            = floorDevice.trust_score * (199/200))) :=
  ⟨by norm_num [floorDevice],
    trust_score_bounds floorDevice true (by norm_num [floorDevice])
      (by norm_num [floorDevice])⟩

/-- A fresh honest work item (trust initialized to 1.0). -/
def honestStart : Device :=
  { id := 1, cpu_request := 1, weight_latency := 4/5, weight_energy := 1/5,
    deadline := 30, is_malicious := false, trust_score := 1,
    consecutive_rejections := 0 }

/-- The state of a work item after `k` consecutive iterations in which it was
assigned (each applying `update_trust_score(is_assigned=True)`). -/
def iterAssigned (d : Device) : Nat → Device
  | 0 => d
  | k + 1 => (iterAssigned d k).update_trust_score true

theorem update_preserves_malicious (d : Device) (b : Bool) :
    (d.update_trust_score b).is_malicious = d.is_malicious := by
  unfold Device.update_trust_score
  cases b <;> cases hm : d.is_malicious <;> simp [hm]

theorem iterAssigned_malicious (d : Device) (k : Nat) :
    (iterAssigned d k).is_malicious = d.is_malicious := by
  induction k with
  | zero => rfl
  | succ k ih => rw [iterAssigned, update_preserves_malicious, ih]

theorem update_honest_trust (d : Device) (hm : d.is_malicious = false) :
    (d.update_trust_score true).trust_score = min 1 (d.trust_score * (21/20)) := by
  simp [Device.update_trust_score, hm]

theorem update_malicious_trust (d : Device) (hm : d.is_malicious = true) :
    (d.update_trust_score true).trust_score
      = max (1/10) (d.trust_score
          * (9/10 - (1/20) * ((d.consecutive_rejections + 1 : Nat) : ℚ))) := by
  simp [Device.update_trust_score, hm]

/-- Closed form for a repeatedly-assigned honest item:
`trust_k = min 1 (trust_0 * 1.05 ^ k)` for `k ≥ 1` (and for `k = 0` when the
start is already `≤ 1`). -/
theorem iterAssigned_honest_closed (d : Device) (hm : d.is_malicious = false)
    (h1 : d.trust_score ≤ 1) (h0 : 0 ≤ d.trust_score) (k : Nat) :
    (iterAssigned d k).trust_score = min 1 (d.trust_score * (21/20) ^ k) := by
  induction k with
  | zero => simp [iterAssigned, min_eq_right h1]
  | succ k ih =>
    rw [iterAssigned, update_honest_trust _ (by rw [iterAssigned_malicious]; exact hm), ih]
    rcases le_total (d.trust_score * (21/20) ^ k) 1 with h | h
    · rw [min_eq_right h, pow_succ, ← mul_assoc]
    · rw [min_eq_left h, one_mul]
      have h2 : (1:ℚ) ≤ d.trust_score * (21/20) ^ (k+1) := by
        calc (1:ℚ) ≤ (d.trust_score * (21/20) ^ k) * (21/20) := by nlinarith
        _ = d.trust_score * (21/20) ^ (k+1) := by ring
      rw [min_eq_left (by norm_num), min_eq_left h2]

theorem iterAssigned_malicious_floor (d : Device) (hm : d.is_malicious = true)
    (h : 1/10 ≤ d.trust_score) (k : Nat) :
    1/10 ≤ (iterAssigned d k).trust_score := by
  cases k with
  | zero => exact h
  | succ k =>
    rw [iterAssigned, update_malicious_trust _ (by rw [iterAssigned_malicious]; exact hm)]
    exact le_max_left _ _

/-- The penalty factor applied at any malicious assigned update is at most
`0.85` (since the incremented counter is at least 1). -/
theorem penalty_le (n : Nat) :
    (9/10 - (1/20) * ((n + 1 : Nat) : ℚ)) ≤ 17/20 := by
  have : (1:ℚ) ≤ ((n + 1 : Nat) : ℚ) := by
    exact_mod_cast Nat.one_le_iff_ne_zero.mpr (Nat.succ_ne_zero _)
  nlinarith

theorem iterAssigned_malicious_anti (d : Device) (hm : d.is_malicious = true)
    (h : 1/10 ≤ d.trust_score) (k : Nat) :
    (iterAssigned d (k+1)).trust_score ≤ (iterAssigned d k).trust_score := by
  have hf : 1/10 ≤ (iterAssigned d k).trust_score := iterAssigned_malicious_floor d hm h k
  rw [iterAssigned, update_malicious_trust _ (by rw [iterAssigned_malicious]; exact hm)]
  apply max_le (by linarith)
  have hp := penalty_le (iterAssigned d k).consecutive_rejections
  rcases le_total (9/10 - (1/20) * (((iterAssigned d k).consecutive_rejections + 1 : Nat) : ℚ)) 0
    with h0 | h0
  · nlinarith
  · nlinarith

/-- Decay envelope for a repeatedly-assigned malicious item:
`trust_k ≤ max 0.1 (trust_0 * 0.85 ^ k)`. -/
theorem iterAssigned_malicious_upper (d : Device) (hm : d.is_malicious = true)
    (h : 1/10 ≤ d.trust_score) (k : Nat) :
    (iterAssigned d k).trust_score ≤ max (1/10) (d.trust_score * (17/20) ^ k) := by
  induction k with
  | zero => simp [iterAssigned]
  | succ k ih =>
    have hf : 1/10 ≤ (iterAssigned d k).trust_score := iterAssigned_malicious_floor d hm h k
    rw [iterAssigned, update_malicious_trust _ (by rw [iterAssigned_malicious]; exact hm)]
    apply max_le (le_max_left _ _)
    have hp := penalty_le (iterAssigned d k).consecutive_rejections
    rcases le_total (9/10 - (1/20) * (((iterAssigned d k).consecutive_rejections + 1 : Nat) : ℚ)) 0
      with h0 | h0
    · calc (iterAssigned d k).trust_score
            * (9/10 - (1/20) * (((iterAssigned d k).consecutive_rejections + 1 : Nat) : ℚ))
          ≤ 0 := by nlinarith
      _ ≤ max (1/10) (d.trust_score * (17/20) ^ (k+1)) := le_max_of_le_left (by norm_num)
    · have step : (iterAssigned d k).trust_score
            * (9/10 - (1/20) * (((iterAssigned d k).consecutive_rejections + 1 : Nat) : ℚ))
          ≤ (iterAssigned d k).trust_score * (17/20) := by nlinarith
      rcases max_cases (1/10 : ℚ) (d.trust_score * (17/20) ^ k) with ⟨he, hle⟩ | ⟨he, hle⟩
      · have : (iterAssigned d k).trust_score ≤ 1/10 := he ▸ ih
        apply le_max_of_le_left
        nlinarith
      · have hk : (iterAssigned d k).trust_score ≤ d.trust_score * (17/20) ^ k := he ▸ ih
        apply le_max_of_le_right
        calc (iterAssigned d k).trust_score
              * (9/10 - (1/20) * (((iterAssigned d k).consecutive_rejections + 1 : Nat) : ℚ))
            ≤ (iterAssigned d k).trust_score * (17/20) := step
        _ ≤ (d.trust_score * (17/20) ^ k) * (17/20) := by nlinarith
        _ = d.trust_score * (17/20) ^ (k+1) := by ring

/-- C8: an honest work item that is assigned at every trust update has a
non-decreasing trust score that reaches exactly `1.0` after at most 48
updates (hence converges to `1.0`); a malicious work item that is assigned
at every trust update has a non-increasing trust score that reaches exactly
`0.1` after at most 15 updates (hence converges to `0.1`) — for any starting
score in `[0.1, 1.0]`. -/
theorem assigned_trust_convergence (d e : Device)
    (hd : d.is_malicious = false) (he : e.is_malicious = true)
    (hd0 : 1/10 ≤ d.trust_score) (hd1 : d.trust_score ≤ 1)
    (he0 : 1/10 ≤ e.trust_score) (he1 : e.trust_score ≤ 1) :
    (∀ k, (iterAssigned d k).trust_score ≤ (iterAssigned d (k+1)).trust_score)
    ∧ (∀ k, 48 ≤ k → (iterAssigned d k).trust_score = 1)
    ∧ (∀ k, (iterAssigned e (k+1)).trust_score ≤ (iterAssigned e k).trust_score)
    ∧ (∀ k, 15 ≤ k → (iterAssigned e k).trust_score = 1/10) := by
  have hd0' : (0:ℚ) ≤ d.trust_score := by linarith
  have hcf := iterAssigned_honest_closed d hd hd1 hd0'
  refine ⟨?_, ?_, iterAssigned_malicious_anti e he he0, ?_⟩
  · intro k
    rw [hcf k, hcf (k+1)]
    apply min_le_min le_rfl
    have h1 : ((21:ℚ)/20) ^ k ≤ (21/20) ^ (k+1) := by
      apply pow_le_pow_right₀ (by norm_num) (Nat.le_succ k)
    nlinarith [pow_pos (by norm_num : (0:ℚ) < 21/20) k]
  · intro k hk
    rw [hcf k]
    have hbig : (10:ℚ) ≤ (21/20) ^ k := by
      calc (10:ℚ) ≤ (21/20) ^ 48 := by norm_num
      _ ≤ (21/20) ^ k := pow_le_pow_right₀ (by norm_num) hk
    have : (1:ℚ) ≤ d.trust_score * (21/20) ^ k := by nlinarith
    exact min_eq_left this
  · intro k hk
    have hup := iterAssigned_malicious_upper e he he0 k
    have hsmall : ((17:ℚ)/20) ^ k ≤ (17/20) ^ 15 :=
      pow_le_pow_of_le_one (by norm_num) (by norm_num) hk
    have h15 : ((17:ℚ)/20) ^ 15 < 1/10 := by norm_num
    have hple : e.trust_score * (17/20) ^ k ≤ 1/10 := by
      have hpos : (0:ℚ) < (17/20) ^ k := pow_pos (by norm_num) k
      nlinarith
    have hle : (iterAssigned e k).trust_score ≤ 1/10 :=
      le_trans hup (max_le le_rfl hple)
    exact le_antisymm hle (iterAssigned_malicious_floor e he he0 k)

/-- Witness for `assigned_trust_convergence`: a fresh honest item (trust 1.0)
and a fresh malicious item (trust 0.1). -/
theorem assigned_trust_convergence_witness :
    ((honestStart.is_malicious = false) ∧ (floorDevice.is_malicious = true)
      ∧ 1/10 ≤ honestStart.trust_score ∧ honestStart.trust_score ≤ 1
      ∧ 1/10 ≤ floorDevice.trust_score ∧ floorDevice.trust_score ≤ 1)
    ∧ ((∀ k, (iterAssigned honestStart k).trust_score
          ≤ (iterAssigned honestStart (k+1)).trust_score)
      ∧ (∀ k, 48 ≤ k → (iterAssigned honestStart k).trust_score = 1)
      ∧ (∀ k, (iterAssigned floorDevice (k+1)).trust_score
          ≤ (iterAssigned floorDevice k).trust_score)
      ∧ (∀ k, 15 ≤ k → (iterAssigned floorDevice k).trust_score = 1/10)) :=
  ⟨⟨rfl, rfl, by norm_num [honestStart], by norm_num [honestStart],
      by norm_num [floorDevice], by norm_num [floorDevice]⟩,
    assigned_trust_convergence honestStart floorDevice rfl rfl
      (by norm_num [honestStart]) (by norm_num [honestStart])
      (by norm_num [floorDevice]) (by norm_num [floorDevice])⟩

/-! ## The simulation engine (`Simulation` in `core.py`)

The cost matrix is drawn randomly once per `Simulation` instance; the
embedding abstracts it as an arbitrary function `cost : Nat → Nat → ℚ × ℚ`
mapping `(device id, server id)` to the fixed `(latency, energy)` base pair.
Python exceptions are modelled as `Except Unit`. -/

/-- The three allocation strategies accepted by `Simulation.run`. -/
inductive Algo where
  | game_theory
  | greedy
  | random
deriving DecidableEq, Repr

/-- `Simulation._get_dynamic_cost`: latency is the base latency scaled by
`1 + current load`; energy is the base energy; processing time is
`cpu_request / capacity_cpu`, or `float('inf')` — modelled as `none` — when
the capacity is not positive. -/
def dynamicCost (cost : Nat → Nat → ℚ × ℚ) (d : Device) (s : Server) :
    ℚ × ℚ × Option ℚ :=
  let base := cost d.id s.id
  let load_factor := 1 + s.get_current_cpu_load
  let proc := if 0 < s.capacity_cpu then some (d.cpu_request / s.capacity_cpu) else none
  (base.1 * load_factor, base.2, proc)

/-- Python dict write `m[k] = v` on an insertion-ordered dict: overwrite in
place if the key exists, else append. -/
def dictInsert (m : List (Nat × Option Nat)) (k : Nat) (v : Option Nat) :
    List (Nat × Option Nat) :=
  if m.any (fun p => p.1 = k) then
    m.map (fun p => if p.1 = k then (k, v) else p)
  else m ++ [(k, v)]

/-- Append a device to the first server whose id matches (Python:
`next((s for s in self.servers if s.id == srv_id), None)` then
`.hosted.append(device)`). -/
def addToServer (servers : List Server) (sid : Nat) (d : Device) : List Server :=
  match servers with
  | [] => []
  | s :: rest =>
    if s.id = sid then { s with hosted := s.hosted ++ [d] } :: rest
    else s :: addToServer rest sid d

/-- One entry of the loop body of `Simulation._assign_devices_to_servers`:
a `None` server id is skipped; otherwise the first matching server and first
matching device are looked up and, only if both exist, the device is appended
to that server's hosted list — a missing id is silently skipped. -/
def assignStep (devices : List Device) (srvs : List Server)
    (p : Nat × Option Nat) : List Server :=
  match p.2 with
  | none => srvs
  | some sid =>
    match srvs.find? (fun s => s.id = sid), devices.find? (fun d => d.id = p.1) with
    | some _, some d => addToServer srvs sid d
    | _, _ => srvs

/-- `Simulation._assign_devices_to_servers`: every host's hosted list is
reset to empty, then the assignment entries are materialized in order. -/
def assignDevicesToServers (servers : List Server) (devices : List Device)
    (assignments : List (Nat × Option Nat)) : List Server :=
  assignments.foldl (assignStep devices) (servers.map (fun s => { s with hosted := [] }))

/-- The argmax scan `best_server_id, max_utility = None, -float('inf');
for server in servers: ... if utility > max_utility: ...` shared by the
proposal phase and the greedy branch: scan servers in order with a strict `>`
comparison against a running maximum starting at `-inf` (so the first server
always beats the initial maximum, and ties keep the earlier server). -/
def bestStep (score : Server → ℚ) (acc : Option (Nat × ℚ)) (s : Server) :
    Option (Nat × ℚ) :=
  match acc with
  | none => some (s.id, score s)
  | some q => if score s > q.2 then some (s.id, score s) else acc

def bestServerBy (score : Server → ℚ) (servers : List Server) : Option Nat :=
  (servers.foldl (bestStep score) none).map (fun q => q.1)

/-- Proposal phase of the game-theoretic algorithm: a device proposes to the
server maximizing `utility(dynamic latency, energy) * trust_score`. -/
def gtBestServer (cost : Nat → Nat → ℚ × ℚ) (servers : List Server)
    (d : Device) : Option Nat :=
  bestServerBy (fun s =>
    let c := dynamicCost cost d s
    d.calculate_utility c.1 c.2.1 * d.trust_score) servers

/-- Stable insertion used to model Python's stable `list.sort(key=trust,
reverse=True)`: a device is placed after every already-placed device of
trust score ≥ its own. -/
def insertByTrust (d : Device) : List Device → List Device
  | [] => [d]
  | x :: xs =>
    if d.trust_score ≤ x.trust_score then x :: insertByTrust d xs
    else d :: x :: xs

/-- Stable descending sort by trust score (ties keep proposal order). -/
def sortByTrustDesc (l : List Device) : List Device :=
  l.foldl (fun acc d => insertByTrust d acc) []

/-- Acceptance phase of the game-theoretic algorithm for one host: starting
from the empty accepted set with baseline utility `utility([]) = 0`, scan the
(trust-sorted) proposers in order and accept a candidate exactly when adding
it strictly increases the host utility over the best value seen so far. -/
def acceptDevices (s : Server) (requesting : List Device) : List Device :=
  (requesting.foldl (fun acc d =>
      let pot := acc.1 ++ [d]
      if s.calculate_utility pot > acc.2 then (pot, s.calculate_utility pot)
      else acc)
    ([], s.calculate_utility [])).1

/-- The full game-theoretic decision: proposals by device order, then each
server (in order) accepts from its trust-sorted proposers, writing
`final_assignments[device.id] = server.id`. -/
def gtAssignments (cost : Nat → Nat → ℚ × ℚ) (devices : List Device)
    (servers : List Server) : List (Nat × Option Nat) :=
  servers.foldl (fun asg s =>
    let requesting := devices.filter (fun d => gtBestServer cost servers d = some s.id)
    let accepted := acceptDevices s (sortByTrustDesc requesting)
    accepted.foldl (fun a d => dictInsert a d.id (some s.id)) asg) []

/-- Greedy choice for one device: scan servers in order maximizing
`utility(base latency, base energy)` — the raw cost-matrix entries
(`self.cost_matrix[device.id][server.id]['latency']` / `['energy']`), with
no load factor and no trust multiplier. -/
def greedyBestServer (cost : Nat → Nat → ℚ × ℚ) (servers : List Server)
    (d : Device) : Option Nat :=
  bestServerBy (fun s => d.calculate_utility (cost d.id s.id).1 (cost d.id s.id).2) servers

/-- The per-iteration assignment decision of `Simulation.run` for each
algorithm. Greedy inserts an entry for every device even when no server
exists (value `none`); random models `random.choice(self.servers)` with an
index oracle and raises (`IndexError`) on an empty server list. -/
def computeAssignments (cost : Nat → Nat → ℚ × ℚ) (alg : Algo)
    (rng : Nat → Nat → Nat) (i : Nat) (devices : List Device)
    (servers : List Server) : Except Unit (List (Nat × Option Nat)) :=
  match alg with
  | .game_theory => .ok (gtAssignments cost devices servers)
  | .greedy =>
    .ok (devices.foldl (fun a d => dictInsert a d.id (greedyBestServer cost servers d)) [])
  | .random =>
    devices.enum.foldlM (fun a p =>
      match servers with
      | [] => .error ()
      | s0 :: rest =>
        .ok (dictInsert a p.2.id
          (some (((s0 :: rest).getD (rng i p.1 % (s0 :: rest).length) s0).id))))
      []

/-- The eight per-iteration metric histories recorded by `Simulation.run`.
The source appends `np.std(server_loads)` for `server_load_std_dev`; the
embedding records the per-iteration list of server loads instead (an exact
rational datum) and recovers the standard-deviation sequence by mapping
`npStd` over it — see `npStd` below. All other metrics are recorded as the
source computes them. -/
structure History where
  avg_device_utility : List ℚ
  server_loads : List (List ℚ)
  avg_trust_honest : List ℚ
  avg_trust_malicious : List ℚ
  completion_ratio : List ℚ
  deadline_adherence : List ℚ
  malicious_accepted : List ℚ
  total_energy : List ℚ
deriving DecidableEq, Repr

/-- The empty history every run starts from. -/
def History.empty : History := ⟨[], [], [], [], [], [], [], []⟩

/-- One iteration's metric row. -/
structure Row where
  avg_device_utility : ℚ
  server_loads : List ℚ
  avg_trust_honest : ℚ
  avg_trust_malicious : ℚ
  completion_ratio : ℚ
  deadline_adherence : ℚ
  malicious_accepted : ℚ
  total_energy : ℚ
deriving DecidableEq, Repr

/-- Append one iteration's metrics to every history list. -/
def History.push (h : History) (r : Row) : History :=
  ⟨h.avg_device_utility ++ [r.avg_device_utility],
   h.server_loads ++ [r.server_loads],
   h.avg_trust_honest ++ [r.avg_trust_honest],
   h.avg_trust_malicious ++ [r.avg_trust_malicious],
   h.completion_ratio ++ [r.completion_ratio],
   h.deadline_adherence ++ [r.deadline_adherence],
   h.malicious_accepted ++ [r.malicious_accepted],
   h.total_energy ++ [r.total_energy]⟩

/-- The replication step for greedy/random iterations `i > 0`:
`for key in history: if history[key]: history[key].append(history[key][0])`. -/
def appendHead {α : Type} (l : List α) : List α :=
  match l with
  | [] => []
  | x :: xs => (x :: xs) ++ [x]

/-- Replicate every metric's iteration-0 value. -/
def History.replicateHead (h : History) : History :=
  ⟨appendHead h.avg_device_utility, appendHead h.server_loads,
   appendHead h.avg_trust_honest, appendHead h.avg_trust_malicious,
   appendHead h.completion_ratio, appendHead h.deadline_adherence,
   appendHead h.malicious_accepted, appendHead h.total_energy⟩

/-- Accumulator of the metrics loop over assignment entries
(`total_utility, deadlines_met, malicious_accepted, total_energy,
assigned_count`). -/
structure Stats where
  totU : ℚ
  met : Nat
  malAcc : Nat
  energy : ℚ
  assigned : Nat
deriving DecidableEq, Repr

/-- The metrics loop of `Simulation.run`: entries with a `None` server id are
skipped; otherwise the device and server are looked up with `next(...)`
with no default, so an absent id raises `StopIteration` (modelled as an
error). The dynamic cost is evaluated against the pre-assignment server
state. -/
def metricsStep (cost : Nat → Nat → ℚ × ℚ) (devices : List Device)
    (servers : List Server) (st : Stats) (p : Nat × Option Nat) :
    Except Unit Stats :=
  match p.2 with
  | none => .ok st
  | some sid =>
    match devices.find? (fun x => x.id = p.1) with
    | none => .error ()
    | some d =>
      match servers.find? (fun x => x.id = sid) with
      | none => .error ()
      | some s =>
        let c := dynamicCost cost d s
        .ok { totU := st.totU + d.calculate_utility c.1 c.2.1,
              met := st.met + (match c.2.2 with
                | some pt => if c.1 + pt ≤ d.deadline then 1 else 0
                | none => 0),
              malAcc := st.malAcc + (if d.is_malicious then 1 else 0),
              energy := st.energy + c.2.1,
              assigned := st.assigned + 1 }

def metricsLoop (cost : Nat → Nat → ℚ × ℚ) (devices : List Device)
    (servers : List Server) (assignments : List (Nat × Option Nat)) :
    Except Unit Stats :=
  assignments.foldlM (metricsStep cost devices servers) ⟨0, 0, 0, 0, 0⟩

/-- The mutable state of one run: the device population (trust scores and
rejection counters evolve), the server population (hosted lists evolve), and
the recorded history. -/
structure RunState where
  devices : List Device
  servers : List Server
  hist : History
deriving DecidableEq, Repr

/-- Initial run state. -/
def mkState (devices : List Device) (servers : List Server) : RunState :=
  ⟨devices, servers, History.empty⟩

/-- The per-device trust update of `Simulation.run`: a device counts as
assigned exactly when its id is a KEY of the assignment mapping, whatever the
mapped value (`assigned_ids = set(assignments.keys())`). -/
def updDevices (devices : List Device) (assignments : List (Nat × Option Nat)) :
    List Device :=
  devices.map (fun d =>
    d.update_trust_score ((assignments.map (fun p => p.1)).contains d.id))

/-- The metric row recorded at the end of a non-replicated iteration, with
the safe-default conventions of the source (empty populations and zero
denominators yield the documented defaults). -/
def mkRow (devices' : List Device) (servers' : List Server) (stats : Stats) :
    Row :=
  let honest := (devices'.filter (fun d => !d.is_malicious)).map (fun d => d.trust_score)
  let malicious := (devices'.filter (fun d => d.is_malicious)).map (fun d => d.trust_score)
  { avg_device_utility :=
      if devices' = [] then 0 else stats.totU / (devices'.length : ℚ),
    server_loads := servers'.map Server.get_current_cpu_load,
    avg_trust_honest := if honest = [] then 1 else honest.sum / (honest.length : ℚ),
    avg_trust_malicious :=
      if malicious = [] then 1/10 else malicious.sum / (malicious.length : ℚ),
    completion_ratio :=
      if devices' = [] then 0 else (stats.assigned : ℚ) / (devices'.length : ℚ),
    deadline_adherence :=
      if stats.assigned = 0 then 0 else (stats.met : ℚ) / (stats.assigned : ℚ),
    malicious_accepted :=
      if malicious.length = 0 then 0
      else (stats.malAcc : ℚ) / (malicious.length : ℚ),
    total_energy := stats.energy }

/-- The non-replicated tail of one iteration of `Simulation.run`: update every
device's trust score by key membership in the assignment mapping, run the
metrics loop against the pre-assignment servers, materialize the assignment,
and record the metric row. -/
def iterCore (cost : Nat → Nat → ℚ × ℚ) (st : RunState)
    (assignments : List (Nat × Option Nat)) : Except Unit RunState :=
  match metricsLoop cost (updDevices st.devices assignments) st.servers assignments with
  | .error e => .error e
  | .ok stats =>
    .ok ⟨updDevices st.devices assignments,
         assignDevicesToServers st.servers (updDevices st.devices assignments) assignments,
         st.hist.push (mkRow (updDevices st.devices assignments)
           (assignDevicesToServers st.servers
             (updDevices st.devices assignments) assignments) stats)⟩

/-- One iteration of `Simulation.run`: compute the assignment for the chosen
algorithm (greedy/random recompute it every iteration), then for greedy and
random at `i > 0` replicate iteration 0's recorded metrics and skip
everything else; otherwise update trust, record metrics, and apply the
assignment. -/
def runIter (cost : Nat → Nat → ℚ × ℚ) (alg : Algo) (rng : Nat → Nat → Nat)
    (i : Nat) (st : RunState) : Except Unit RunState :=
  match computeAssignments cost alg rng i st.devices st.servers with
  | .error e => .error e
  | .ok assignments =>
    if (alg = .greedy ∨ alg = .random) ∧ 0 < i then
      .ok { st with hist := st.hist.replicateHead }
    else
      iterCore cost st assignments

/-- `Simulation.run`: the iteration loop. -/
def runSim (cost : Nat → Nat → ℚ × ℚ) (alg : Algo) (rng : Nat → Nat → Nat)
    (iterations : Nat) (st : RunState) : Except Unit RunState :=
  (List.range iterations).foldlM (fun s i => runIter cost alg rng i s) st

theorem except_bind_ok {α β : Type} (a : α) (f : α → Except Unit β) :
    (Except.ok a >>= f : Except Unit β) = f a := rfl

theorem except_bind_error {α β : Type} (f : α → Except Unit β) :
    ((Except.error () : Except Unit α) >>= f) = Except.error () := rfl

theorem except_pure {α : Type} (a : α) :
    (pure a : Except Unit α) = Except.ok a := rfl


/-! ## C2: the two-items-one-host acceptance scenario -/

/-- The host of the C2 scenario: capacity 2.0 (and the fixed
`load_balancing_weight = 1.5`). -/
def hostCap2 : Server := ⟨10, 2, [], 3/2⟩

/-- First honest work item of the C2 scenario: demand 1.0, trust 1.0. -/
def itemOne : Device := ⟨1, 1, 4/5, 1/5, 30, false, 1, 0⟩

/-- Second honest work item of the C2 scenario: demand 1.0, trust 1.0. -/
def itemTwo : Device := ⟨2, 1, 4/5, 1/5, 30, false, 1, 0⟩

/-- A cost matrix with constant base latency 1 and energy 1. -/
def unitCost : Nat → Nat → ℚ × ℚ := fun _ _ => (1, 1)

/-- C2 counterexample: with one host of capacity 2.0 and two honest items of
demand 1.0 and trust 1.0 both proposing to it, the acceptance scan does NOT
assign both — it accepts only the first item (accepting the first raises the
host utility from 0 to 0.625; adding the second would drop it to −0.5, which
is not a strict improvement, so the second is rejected). The final
game-theoretic assignment maps only item 1. -/
theorem acceptance_scenario_not_both :
    acceptDevices hostCap2 (sortByTrustDesc [itemOne, itemTwo]) = [itemOne]
    ∧ gtAssignments unitCost [itemOne, itemTwo] [hostCap2] = [(1, some 10)] := by
  constructor
  · norm_num [acceptDevices, sortByTrustDesc, insertByTrust, Server.calculate_utility,
      hostCap2, itemOne, itemTwo]
  · norm_num [gtAssignments, gtBestServer, bestServerBy, bestStep, dynamicCost, Device.calculate_utility,
      Server.calculate_utility, Server.get_current_cpu_load, acceptDevices,
      sortByTrustDesc, insertByTrust, dictInsert, unitCost, hostCap2, itemOne, itemTwo]

/-- C2 (amended): in the scenario of one host with capacity 2.0 and two
honest items of demand 1.0 and trust 1.0 proposing to it, the acceptance
scan assigns exactly the first proposer and rejects the second (adding it
would lower the host utility from 0.625 to −0.5). -/
theorem acceptance_scenario_first_only (s : Server) (d1 d2 : Device)
    (hc : s.capacity_cpu = 2) (hw : s.load_balancing_weight = 3/2)
    (h1c : d1.cpu_request = 1) (h2c : d2.cpu_request = 1)
    (h1t : d1.trust_score = 1) (h2t : d2.trust_score = 1) :
    acceptDevices s (sortByTrustDesc [d1, d2]) = [d1] := by
  have hsort : sortByTrustDesc [d1, d2] = [d1, d2] := by
    simp [sortByTrustDesc, insertByTrust, h1t, h2t]
  rw [hsort]
  norm_num [acceptDevices, Server.calculate_utility, hc, hw, h1c, h2c, h1t, h2t]

/-- Witness for `acceptance_scenario_first_only` at the concrete scenario. -/
theorem acceptance_scenario_first_only_witness :
    (hostCap2.capacity_cpu = 2 ∧ hostCap2.load_balancing_weight = 3/2
      ∧ itemOne.cpu_request = 1 ∧ itemTwo.cpu_request = 1
      ∧ itemOne.trust_score = 1 ∧ itemTwo.trust_score = 1)
    ∧ acceptDevices hostCap2 (sortByTrustDesc [itemOne, itemTwo]) = [itemOne] :=
  ⟨⟨rfl, rfl, rfl, rfl, rfl, rfl⟩,
    acceptance_scenario_first_only hostCap2 itemOne itemTwo rfl rfl rfl rfl rfl rfl⟩

/-! ## C3: the greedy branch ignores the load-aware dynamic cost -/

/-- Modelled from the spec's words, for comparison only: the greedy selection
the claim describes, optimizing the item utility of the load-aware dynamic
cost (base latency times `1 + current load`), without the trust multiplier. -/
def dynGreedyBestServer (cost : Nat → Nat → ℚ × ℚ) (servers : List Server)
    (d : Device) : Option Nat :=
  bestServerBy (fun s =>
    let c := dynamicCost cost d s
    d.calculate_utility c.1 c.2.1) servers

theorem bestStep_none (score : Server → ℚ) (s : Server) :
    bestStep score none s = some (s.id, score s) := rfl

theorem bestStep_some (score : Server → ℚ) (q : Nat × ℚ) (s : Server) :
    bestStep score (some q) s
      = if score s > q.2 then some (s.id, score s) else some q := rfl

/-- Value of the accumulator never decreases along the argmax scan. -/
theorem bestServerBy_fold_mono (score : Server → ℚ) (servers : List Server)
    (q1 q : Nat × ℚ)
    (h : servers.foldl (bestStep score) (some q1) = some q) : q1.2 ≤ q.2 := by
  induction servers generalizing q1 with
  | nil => simp_all
  | cons s rest ih =>
    rw [List.foldl_cons, bestStep_some] at h
    by_cases hgt : score s > q1.2
    · rw [if_pos hgt] at h
      have := ih (s.id, score s) h
      simp only at this
      linarith
    · rw [if_neg hgt] at h
      exact ih q1 h

/-- The argmax scan is correct: a returned id belongs to a scanned server
whose score is maximal among all scanned servers. -/
theorem bestServerBy_maximal (score : Server → ℚ) (servers : List Server)
    (sid : Nat) (h : bestServerBy score servers = some sid) :
    ∃ s ∈ servers, s.id = sid ∧ ∀ t ∈ servers, score t ≤ score s := by
  have key : ∀ (l : List Server) (acc : Option (Nat × ℚ)) (q : Nat × ℚ),
      l.foldl (bestStep score) acc = some q →
      (∀ t ∈ l, score t ≤ q.2)
        ∧ (acc = some q ∨ ∃ s ∈ l, s.id = q.1 ∧ score s = q.2) := by
    intro l
    induction l with
    | nil =>
      intro acc q h
      rw [List.foldl_nil] at h
      exact ⟨by simp, Or.inl h⟩
    | cons s rest ih =>
      intro acc q h
      rw [List.foldl_cons] at h
      cases acc with
      | none =>
        rw [bestStep_none] at h
        have hmono := bestServerBy_fold_mono score rest (s.id, score s) q h
        obtain ⟨hmax, hdisj⟩ := ih (some (s.id, score s)) q h
        refine ⟨?_, ?_⟩
        · intro t ht
          rcases List.mem_cons.mp ht with rfl | ht'
          · simpa using hmono
          · exact hmax t ht'
        · rcases hdisj with heq | ⟨s', hs', h1, h2⟩
          · refine Or.inr ⟨s, List.mem_cons_self s rest, ?_, ?_⟩
            · exact congrArg Prod.fst (Option.some.inj heq)
            · exact congrArg Prod.snd (Option.some.inj heq)
          · exact Or.inr ⟨s', List.mem_cons_of_mem s hs', h1, h2⟩
      | some q0 =>
        rw [bestStep_some] at h
        by_cases hgt : score s > q0.2
        · rw [if_pos hgt] at h
          have hmono := bestServerBy_fold_mono score rest (s.id, score s) q h
          obtain ⟨hmax, hdisj⟩ := ih (some (s.id, score s)) q h
          refine ⟨?_, ?_⟩
          · intro t ht
            rcases List.mem_cons.mp ht with rfl | ht'
            · simpa using hmono
            · exact hmax t ht'
          · rcases hdisj with heq | ⟨s', hs', h1, h2⟩
            · refine Or.inr ⟨s, List.mem_cons_self s rest, ?_, ?_⟩
              · exact congrArg Prod.fst (Option.some.inj heq)
              · exact congrArg Prod.snd (Option.some.inj heq)
            · exact Or.inr ⟨s', List.mem_cons_of_mem s hs', h1, h2⟩
        · rw [if_neg hgt] at h
          have hmono := bestServerBy_fold_mono score rest q0 q h
          obtain ⟨hmax, hdisj⟩ := ih (some q0) q h
          refine ⟨?_, ?_⟩
          · intro t ht
            rcases List.mem_cons.mp ht with rfl | ht'
            · push_neg at hgt; linarith
            · exact hmax t ht'
          · rcases hdisj with heq | ⟨s', hs', h1, h2⟩
            · exact Or.inl heq
            · exact Or.inr ⟨s', List.mem_cons_of_mem s hs', h1, h2⟩
  unfold bestServerBy at h
  rcases Option.map_eq_some'.mp h with ⟨q, hq, hfst⟩
  obtain ⟨hmax, hdisj⟩ := key servers none q hq
  rcases hdisj with heq | ⟨s, hs, h1, h2⟩
  · simp at heq
  · exact ⟨s, hs, hfst ▸ h1, fun t ht => h2 ▸ hmax t ht⟩

/-- C3 (amended): on every iteration (including iteration 0) the greedy
branch picks, for each item, a host of maximal item utility under the RAW
base cost-matrix entries — not under the load-aware dynamic cost. -/
theorem greedy_picks_raw_base_optimum (cost : Nat → Nat → ℚ × ℚ)
    (servers : List Server) (d : Device) (sid : Nat)
    (h : greedyBestServer cost servers d = some sid) :
    ∃ s ∈ servers, s.id = sid
      ∧ ∀ t ∈ servers,
          d.calculate_utility (cost d.id t.id).1 (cost d.id t.id).2
            ≤ d.calculate_utility (cost d.id s.id).1 (cost d.id s.id).2 := by
  obtain ⟨s, hs, h1, h2⟩ := bestServerBy_maximal _ servers sid h
  exact ⟨s, hs, h1, fun t ht => h2 t ht⟩

/-- A device hosted as pre-existing load for the C3 counterexample. -/
def loadItem : Device := ⟨7, 1, 4/5, 1/5, 30, false, 1, 0⟩

/-- Server 1 of the C3 counterexample: capacity 1, already loaded (load 1). -/
def loadedServer : Server := ⟨1, 1, [loadItem], 3/2⟩

/-- Server 2 of the C3 counterexample: capacity 1, idle. -/
def idleServer : Server := ⟨2, 1, [], 3/2⟩

/-- Cost matrix of the C3 counterexample: base latency 10 to server 1,
11 to server 2, energy 1 everywhere. -/
def skewCost : Nat → Nat → ℚ × ℚ := fun _ s => if s = 1 then (10, 1) else (11, 1)

/-- The probe device of the C3 counterexample. -/
def probeItem : Device := ⟨0, 1, 4/5, 1/5, 30, false, 1, 0⟩

/-- C3 counterexample: the greedy branch picks server 1 (better raw base
latency 10 < 11), but under the load-aware dynamic cost the optimal host is
server 2 (server 1 carries load 1, so its dynamic latency is 20): the host
chosen by the code is not the dynamic-cost optimum, and the dynamic utility
of server 2 strictly exceeds that of server 1. -/
theorem greedy_not_dynamic_optimal :
    greedyBestServer skewCost [loadedServer, idleServer] probeItem = some 1
    ∧ dynGreedyBestServer skewCost [loadedServer, idleServer] probeItem = some 2
    ∧ (let c1 := dynamicCost skewCost probeItem loadedServer
       let c2 := dynamicCost skewCost probeItem idleServer
       probeItem.calculate_utility c1.1 c1.2.1
         < probeItem.calculate_utility c2.1 c2.2.1) := by
  refine ⟨?_, ?_, ?_⟩
  · norm_num [greedyBestServer, bestServerBy, bestStep, Device.calculate_utility,
      skewCost, loadedServer, idleServer, probeItem]
  · norm_num [dynGreedyBestServer, bestServerBy, bestStep, dynamicCost, Device.calculate_utility,
      Server.get_current_cpu_load, skewCost, loadedServer, idleServer, probeItem, loadItem]
  · norm_num [dynamicCost, Device.calculate_utility, Server.get_current_cpu_load,
      skewCost, loadedServer, idleServer, probeItem, loadItem]

/-- Witness for `greedy_picks_raw_base_optimum` at the C3 scenario. -/
theorem greedy_picks_raw_base_optimum_witness :
    greedyBestServer skewCost [loadedServer, idleServer] probeItem = some 1
    ∧ ∃ s ∈ [loadedServer, idleServer], s.id = 1
      ∧ ∀ t ∈ [loadedServer, idleServer],
          probeItem.calculate_utility (skewCost probeItem.id t.id).1
              (skewCost probeItem.id t.id).2
            ≤ probeItem.calculate_utility (skewCost probeItem.id s.id).1
              (skewCost probeItem.id s.id).2 :=
  have h : greedyBestServer skewCost [loadedServer, idleServer] probeItem = some 1 := by
    norm_num [greedyBestServer, bestServerBy, bestStep, Device.calculate_utility,
      skewCost, loadedServer, idleServer, probeItem]
  ⟨h, greedy_picks_raw_base_optimum skewCost [loadedServer, idleServer] probeItem 1 h⟩

/-! ## C6: behavior on assignment entries with unknown ids -/

theorem addToServer_ids (servers : List Server) (sid : Nat) (d : Device) :
    (addToServer servers sid d).map (fun s => s.id) = servers.map (fun s => s.id) := by
  induction servers with
  | nil => rfl
  | cons s rest ih =>
    rw [addToServer]
    by_cases h : s.id = sid
    · rw [if_pos h]; simp
    · rw [if_neg h]; simpa using ih

theorem assignStep_ids (devices : List Device) (srvs : List Server)
    (p : Nat × Option Nat) :
    (assignStep devices srvs p).map (fun s => s.id) = srvs.map (fun s => s.id) := by
  rcases p with ⟨did, _ | sid⟩
  · rfl
  · simp only [assignStep]
    rcases h1 : srvs.find? (fun s => s.id = sid) with _ | s <;>
      rcases h2 : devices.find? (fun d => d.id = did) with _ | d <;>
        simp [h1, h2, addToServer_ids]

theorem foldl_assignStep_ids (asg : List (Nat × Option Nat))
    (devices : List Device) (srvs : List Server) :
    ((asg.foldl (assignStep devices) srvs).map (fun s => s.id))
      = srvs.map (fun s => s.id) := by
  induction asg generalizing srvs with
  | nil => rfl
  | cons p rest ih => rw [List.foldl_cons, ih, assignStep_ids]

/-- C6 (amended): an assignment entry whose work-item id or host id is absent
from the current population is SILENTLY SKIPPED by
`_assign_devices_to_servers` (the materialized result is as if the entry were
not there — no error is raised); by contrast the metrics loop of
`Simulation.run`, which looks ids up with `next(...)` and no default, fails
on an absent work-item id (an unhandled `StopIteration`, not a named
assignment-integrity error). -/
theorem assignment_unknown_id_skipped (servers : List Server)
    (devices : List Device) (pre post : List (Nat × Option Nat))
    (did sid : Nat)
    (habs : (∀ s ∈ servers, s.id ≠ sid) ∨ (∀ d ∈ devices, d.id ≠ did)) :
    assignDevicesToServers servers devices (pre ++ (did, some sid) :: post)
      = assignDevicesToServers servers devices (pre ++ post)
    ∧ (∀ (cost : Nat → Nat → ℚ × ℚ) (rest : List (Nat × Option Nat)),
        (∀ d ∈ devices, d.id ≠ did) →
        metricsLoop cost devices servers ((did, some sid) :: rest) = .error ()) := by
  constructor
  · unfold assignDevicesToServers
    rw [List.foldl_append, List.foldl_append, List.foldl_cons]
    congr 1
    set srvs0 := pre.foldl (assignStep devices)
      (servers.map (fun s => { s with hosted := [] })) with hsrvs0
    show assignStep devices srvs0 (did, some sid) = srvs0
    have hids : srvs0.map (fun s => s.id) = servers.map (fun s => s.id) := by
      rw [hsrvs0, foldl_assignStep_ids]
      simp
    rcases habs with hs | hd
    · have hfind : srvs0.find? (fun s => s.id = sid) = none := by
        apply List.find?_eq_none.mpr
        intro x hx
        have : x.id ∈ servers.map (fun s => s.id) := by
          rw [← hids]; exact List.mem_map_of_mem _ hx
        rcases List.mem_map.mp this with ⟨s, hsmem, hsid⟩
        simpa [hsid] using fun hcontra => hs s hsmem (hsid.symm ▸ hcontra)
      simp only [assignStep]
      rcases h2 : devices.find? (fun d => d.id = did) with _ | d <;>
        simp [hfind, h2]
    · have hfind : devices.find? (fun d => d.id = did) = none := by
        apply List.find?_eq_none.mpr
        intro x hx
        simpa using hd x hx
      simp only [assignStep]
      rcases h1 : srvs0.find? (fun s => s.id = sid) with _ | s <;>
        simp [hfind, h1]
  · intro cost rest hd
    have hfind : devices.find? (fun d => d.id = did) = none := by
      apply List.find?_eq_none.mpr
      intro x hx
      simpa using hd x hx
    have hstep : metricsStep cost devices servers ⟨0, 0, 0, 0, 0⟩ (did, some sid)
        = .error () := by
      unfold metricsStep
      rw [hfind]
    unfold metricsLoop
    rw [List.foldlM_cons, hstep, except_bind_error]

/-- C6 counterexample: the claim that the engine raises an explicit error
when the assignment references an unknown id is false — materializing the
single entry `99 ↦ host 1` over a population whose only work item has id 5
returns normally (the entry is silently dropped; the host is merely reset). -/
theorem assignment_unknown_id_no_error :
    assignDevicesToServers
      [⟨1, 1, [⟨5, 1, 4/5, 1/5, 30, false, 1, 0⟩], 3/2⟩]
      [⟨5, 1, 4/5, 1/5, 30, false, 1, 0⟩]
      [(99, some 1)]
      = [⟨1, 1, [], 3/2⟩] := by
  norm_num [assignDevicesToServers, assignStep, List.find?]

/-- Witness for `assignment_unknown_id_skipped`: unknown work-item id 99. -/
theorem assignment_unknown_id_skipped_witness :
    ((∀ s ∈ [(⟨1, 1, [], 3/2⟩ : Server)], Server.id s ≠ 1)
        ∨ (∀ d ∈ [(⟨5, 1, 4/5, 1/5, 30, false, 1, 0⟩ : Device)], Device.id d ≠ 99))
    ∧ (assignDevicesToServers [(⟨1, 1, [], 3/2⟩ : Server)]
          [(⟨5, 1, 4/5, 1/5, 30, false, 1, 0⟩ : Device)]
          ([] ++ (99, some 1) :: [])
        = assignDevicesToServers [(⟨1, 1, [], 3/2⟩ : Server)]
            [(⟨5, 1, 4/5, 1/5, 30, false, 1, 0⟩ : Device)] ([] ++ [])
      ∧ (∀ (cost : Nat → Nat → ℚ × ℚ) (rest : List (Nat × Option Nat)),
          (∀ d ∈ [(⟨5, 1, 4/5, 1/5, 30, false, 1, 0⟩ : Device)], Device.id d ≠ 99) →
          metricsLoop cost [(⟨5, 1, 4/5, 1/5, 30, false, 1, 0⟩ : Device)]
              [(⟨1, 1, [], 3/2⟩ : Server)] ((99, some 1) :: rest) = .error ())) :=
  have habs : (∀ s ∈ [(⟨1, 1, [], 3/2⟩ : Server)], Server.id s ≠ 1)
      ∨ (∀ d ∈ [(⟨5, 1, 4/5, 1/5, 30, false, 1, 0⟩ : Device)], Device.id d ≠ 99) :=
    Or.inr (by intro d hd; simp at hd; subst hd; norm_num)
  ⟨habs, assignment_unknown_id_skipped _ _ [] [] 99 1 habs⟩

/-! ## C4: hosted sets versus the computed assignment -/

/-- The device an assignment entry contributes to host `x`: the first device
matching the entry's work-item id, provided the entry maps to `x`. -/
def entryDevice (devices : List Device) (p : Nat × Option Nat) (x : Nat) :
    Option Device :=
  match p.2 with
  | some s => if s = x then devices.find? (fun d => d.id = p.1) else none
  | none => none

/-- The exact hosted list the assignment dictates for host id `x`: the
entries mapping to `x`, in order, resolved to their (first-matching)
devices. -/
def hostedSpec (devices : List Device) (asg : List (Nat × Option Nat))
    (x : Nat) : List Device :=
  asg.filterMap (fun p => entryDevice devices p x)

/-- Servers with hosted lists given by a function of their id. -/
def mapHosted (servers : List Server) (f : Nat → List Device) : List Server :=
  servers.map (fun s => { s with hosted := f s.id })

theorem hostedSpec_nil (devices : List Device) (x : Nat) :
    hostedSpec devices [] x = [] := rfl

theorem hostedSpec_cons (devices : List Device) (p : Nat × Option Nat)
    (rest : List (Nat × Option Nat)) (x : Nat) :
    hostedSpec devices (p :: rest) x
      = (entryDevice devices p x).toList ++ hostedSpec devices rest x := by
  unfold hostedSpec
  rw [List.filterMap_cons]
  rcases h : entryDevice devices p x with _ | d <;> simp [h]

theorem addToServer_mapHosted (servers : List Server) (f : Nat → List Device)
    (sid : Nat) (d : Device) (hnd : (servers.map (fun s => s.id)).Nodup) :
    addToServer (mapHosted servers f) sid d
      = mapHosted servers (fun x => f x ++ if x = sid then [d] else []) := by
  induction servers with
  | nil => rfl
  | cons s rest ih =>
    simp only [mapHosted, List.map_cons] at ih ⊢
    rw [List.map_cons] at hnd
    have hnd' := (List.nodup_cons.mp hnd).2
    have hmem := (List.nodup_cons.mp hnd).1
    rw [addToServer]
    by_cases h : s.id = sid
    · rw [if_pos h]
      congr 1
      · simp [h]
      · apply List.map_congr_left
        intro t ht
        have : t.id ≠ sid := by
          intro hc
          exact hmem (h ▸ hc ▸ List.mem_map_of_mem (fun s => s.id) ht)
        simp [this]
    · rw [if_neg h]
      rw [ih hnd']
      congr 1
      simp [h]

theorem assignStep_mapHosted (devices : List Device) (servers : List Server)
    (f : Nat → List Device) (p : Nat × Option Nat)
    (hnd : (servers.map (fun s => s.id)).Nodup) :
    assignStep devices (mapHosted servers f) p
      = mapHosted servers (fun x => f x ++ (entryDevice devices p x).toList) := by
  rcases p with ⟨did, _ | sid⟩
  · show mapHosted servers f = _
    apply List.map_congr_left
    intro t _
    simp [entryDevice]
  · simp only [assignStep]
    rcases h2 : devices.find? (fun d => d.id = did) with _ | d
    · have : ∀ x, (entryDevice devices (did, some sid) x).toList = [] := by
        intro x
        simp only [entryDevice]
        by_cases hx : sid = x <;> simp [hx, h2]
      rcases h1 : (mapHosted servers f).find? (fun s => s.id = sid) with _ | s <;>
        · simp only [h1, h2]
          apply List.map_congr_left
          intro t _
          simp [this]
    · rcases h1 : (mapHosted servers f).find? (fun s => s.id = sid) with _ | s
      · have hsid : ∀ t ∈ servers, t.id ≠ sid := by
          intro t ht hc
          have : ({ t with hosted := f t.id } : Server) ∈ mapHosted servers f :=
            List.mem_map_of_mem _ ht
          have := List.find?_eq_none.mp h1 _ this
          simp at this
          exact this hc
        simp only [h1, h2]
        apply List.map_congr_left
        intro t ht
        have hne : ¬ (sid = t.id) := fun hc => hsid t ht hc.symm
        simp [entryDevice, if_neg hne]
      · simp only [h1, h2]
        rw [addToServer_mapHosted servers f sid d hnd]
        apply List.map_congr_left
        intro t _
        congr 1
        simp only [entryDevice]
        by_cases hx : t.id = sid
        · simp [hx, h2]
        · have hne : ¬ (sid = t.id) := fun hc => hx hc.symm
          simp [hx, if_neg hne]

theorem foldl_assignStep_mapHosted (devices : List Device)
    (servers : List Server) (asg : List (Nat × Option Nat))
    (f : Nat → List Device) (hnd : (servers.map (fun s => s.id)).Nodup) :
    asg.foldl (assignStep devices) (mapHosted servers f)
      = mapHosted servers (fun x => f x ++ hostedSpec devices asg x) := by
  induction asg generalizing f with
  | nil =>
    rw [List.foldl_nil]
    apply List.map_congr_left
    intro t _
    simp [hostedSpec_nil]
  | cons p rest ih =>
    rw [List.foldl_cons, assignStep_mapHosted devices servers f p hnd,
      ih (fun x => f x ++ (entryDevice devices p x).toList)]
    apply List.map_congr_left
    intro t _
    simp only [hostedSpec_cons, List.append_assoc]

/-- `_assign_devices_to_servers` materializes EXACTLY the assignment: with
distinct host ids, every host's hosted list afterwards is precisely the
ordered list of (existing) devices the assignment maps to it. -/
theorem assignDevicesToServers_exact (servers : List Server)
    (devices : List Device) (asg : List (Nat × Option Nat))
    (hnd : (servers.map (fun s => s.id)).Nodup) :
    assignDevicesToServers servers devices asg
      = mapHosted servers (fun x => hostedSpec devices asg x) := by
  unfold assignDevicesToServers
  have : servers.map (fun s => { s with hosted := [] })
      = mapHosted servers (fun _ => []) := rfl
  rw [this, foldl_assignStep_mapHosted devices servers asg (fun _ => []) hnd]
  apply List.map_congr_left
  intro t _
  simp

/-! ## Structural lemmas about the iteration loop -/

theorem runIter_if (cost : Nat → Nat → ℚ × ℚ) (alg : Algo)
    (rng : Nat → Nat → Nat) (i : Nat) (st : RunState)
    (asg : List (Nat × Option Nat))
    (hasg : computeAssignments cost alg rng i st.devices st.servers = .ok asg) :
    runIter cost alg rng i st
      = if (alg = Algo.greedy ∨ alg = Algo.random) ∧ 0 < i
        then .ok { st with hist := st.hist.replicateHead }
        else iterCore cost st asg := by
  unfold runIter
  rw [hasg]

theorem runIter_error (cost : Nat → Nat → ℚ × ℚ) (alg : Algo)
    (rng : Nat → Nat → Nat) (i : Nat) (st : RunState)
    (hasg : computeAssignments cost alg rng i st.devices st.servers = .error ()) :
    runIter cost alg rng i st = .error () := by
  unfold runIter
  rw [hasg]

theorem runIter_replicate_branch (cost : Nat → Nat → ℚ × ℚ) (alg : Algo)
    (rng : Nat → Nat → Nat) (i : Nat) (st st' : RunState)
    (halg : alg = .greedy ∨ alg = .random) (hi : 0 < i)
    (hok : runIter cost alg rng i st = .ok st') :
    st' = { st with hist := st.hist.replicateHead } := by
  rcases hasg : computeAssignments cost alg rng i st.devices st.servers with ⟨⟩ | asg
  · rw [runIter_error cost alg rng i st hasg] at hok
    exact absurd hok (by simp)
  · rw [runIter_if cost alg rng i st asg hasg, if_pos ⟨halg, hi⟩] at hok
    exact (Except.ok.inj hok).symm

theorem runIter_decide_branch (cost : Nat → Nat → ℚ × ℚ) (alg : Algo)
    (rng : Nat → Nat → Nat) (i : Nat) (st : RunState)
    (asg : List (Nat × Option Nat)) (hbr : alg = .game_theory ∨ i = 0)
    (hasg : computeAssignments cost alg rng i st.devices st.servers = .ok asg) :
    runIter cost alg rng i st = iterCore cost st asg := by
  rw [runIter_if cost alg rng i st asg hasg, if_neg]
  rintro ⟨h1, h2⟩
  rcases hbr with rfl | rfl
  · rcases h1 with h | h <;> exact absurd h (by simp)
  · exact absurd h2 (by simp)

theorem iterCore_if (cost : Nat → Nat → ℚ × ℚ) (st : RunState)
    (asg : List (Nat × Option Nat)) (stats : Stats)
    (hml : metricsLoop cost (updDevices st.devices asg) st.servers asg = .ok stats) :
    iterCore cost st asg
      = .ok ⟨updDevices st.devices asg,
          assignDevicesToServers st.servers (updDevices st.devices asg) asg,
          st.hist.push (mkRow (updDevices st.devices asg)
            (assignDevicesToServers st.servers (updDevices st.devices asg) asg)
            stats)⟩ := by
  unfold iterCore
  rw [hml]

theorem iterCore_error (cost : Nat → Nat → ℚ × ℚ) (st : RunState)
    (asg : List (Nat × Option Nat))
    (hml : metricsLoop cost (updDevices st.devices asg) st.servers asg = .error ()) :
    iterCore cost st asg = .error () := by
  unfold iterCore
  rw [hml]

theorem iterCore_ok (cost : Nat → Nat → ℚ × ℚ) (st st' : RunState)
    (asg : List (Nat × Option Nat)) (hok : iterCore cost st asg = .ok st') :
    ∃ stats, metricsLoop cost (updDevices st.devices asg) st.servers asg = .ok stats
      ∧ st'.devices = updDevices st.devices asg
      ∧ st'.servers = assignDevicesToServers st.servers (updDevices st.devices asg) asg
      ∧ st'.hist = st.hist.push
          (mkRow (updDevices st.devices asg)
            (assignDevicesToServers st.servers (updDevices st.devices asg) asg) stats) := by
  rcases hml : metricsLoop cost (updDevices st.devices asg) st.servers asg with ⟨⟩ | stats
  · rw [iterCore_error cost st asg hml] at hok
    exact absurd hok (by simp)
  · rw [iterCore_if cost st asg stats hml] at hok
    obtain rfl := (Except.ok.inj hok).symm
    exact ⟨stats, rfl, rfl, rfl, rfl⟩

/-- C4 (amended): whenever an iteration actually applies its assignment —
every game-theoretic iteration, and iteration 0 of greedy/random — each
host's hosted set at the end of the iteration is EXACTLY the ordered list of
devices the just-computed assignment maps to it (hosted sets are reset and
rebuilt; nothing stale survives), provided host ids are distinct. Under
greedy/random at iterations `i > 0` the recomputed assignment is never
materialized, and the counterexample shows the hosted sets can then disagree
with it. -/
theorem hosted_matches_assignment (cost : Nat → Nat → ℚ × ℚ) (alg : Algo)
    (rng : Nat → Nat → Nat) (i : Nat) (st st' : RunState)
    (asg : List (Nat × Option Nat))
    (hnd : (st.servers.map (fun s => s.id)).Nodup)
    (hbr : alg = .game_theory ∨ i = 0)
    (hasg : computeAssignments cost alg rng i st.devices st.servers = .ok asg)
    (hok : runIter cost alg rng i st = .ok st') :
    st'.servers = st.servers.map (fun s =>
      { s with hosted := hostedSpec (updDevices st.devices asg) asg s.id }) := by
  rw [runIter_decide_branch cost alg rng i st asg hbr hasg] at hok
  obtain ⟨stats, _, _, hsrv, _⟩ := iterCore_ok cost st st' asg hok
  rw [hsrv, assignDevicesToServers_exact _ _ _ hnd]
  rfl

/-- Fixed rng oracle for the C4 counterexample: at iteration `i` pick server
index `i`. -/
def rngIter : Nat → Nat → Nat := fun i _ => i

/-- C4 counterexample: under the random strategy with two hosts (ids 1, 2)
and one work item (id 0), with an oracle choosing host 1 at iteration 0 and
host 2 at iteration 1, the assignment computed in iteration 1 maps item 0 to
host 2, yet at the end of iteration 1 host 2's hosted set is empty and host
1 still hosts the item — the iteration-1 assignment was never applied, so
the hosted sets are stale, refuting the claim for every strategy/iteration. -/
theorem random_stale_hosted :
    ((runSim unitCost .random rngIter 2
        (mkState [⟨0, 1, 4/5, 1/5, 30, false, 1, 0⟩]
          [⟨1, 1, [], 3/2⟩, ⟨2, 1, [], 3/2⟩])).toOption.map
      (fun st => st.servers.map (fun s => (s.id, s.hosted.map (fun d => d.id)))))
      = some [(1, [0]), (2, [])]
    ∧ ((runSim unitCost .random rngIter 1
        (mkState [⟨0, 1, 4/5, 1/5, 30, false, 1, 0⟩]
          [⟨1, 1, [], 3/2⟩, ⟨2, 1, [], 3/2⟩])).toOption.map
      (fun st => computeAssignments unitCost .random rngIter 1 st.devices st.servers))
      = some (.ok [(0, some 2)]) := by
  constructor <;>
    norm_num [runSim, runIter, iterCore, computeAssignments, updDevices, mkRow,
      metricsLoop, metricsStep, assignDevicesToServers, assignStep, addToServer, dictInsert,
      dynamicCost, Device.calculate_utility, Device.update_trust_score,
      Server.get_current_cpu_load, History.empty, History.push, History.replicateHead,
      appendHead, mkState, unitCost, rngIter, List.foldlM, List.range_succ,
      List.enum, List.enumFrom, except_bind_ok, except_bind_error, except_pure,
      Except.toOption]

/-- Witness for `hosted_matches_assignment`: a game-theoretic iteration with
one host (id 10) and one honest item (id 1) that gets accepted. -/
theorem hosted_matches_assignment_witness :
    ((([(⟨10, 2, [], 3/2⟩ : Server)].map (fun s => s.id)).Nodup)
      ∧ computeAssignments unitCost .game_theory rngIter 0
          [⟨1, 1, 4/5, 1/5, 30, false, 1, 0⟩] [⟨10, 2, [], 3/2⟩]
          = .ok [(1, some 10)]
      ∧ runIter unitCost .game_theory rngIter 0
          (mkState [⟨1, 1, 4/5, 1/5, 30, false, 1, 0⟩] [⟨10, 2, [], 3/2⟩])
          = .ok ⟨[⟨1, 1, 4/5, 1/5, 30, false, 1, 0⟩],
              [⟨10, 2, [⟨1, 1, 4/5, 1/5, 30, false, 1, 0⟩], 3/2⟩],
              ⟨[-1], [[1/2]], [1], [1/10], [1], [1], [0], [1]⟩⟩)
    ∧ (RunState.servers ⟨[⟨1, 1, 4/5, 1/5, 30, false, 1, 0⟩],
          [⟨10, 2, [⟨1, 1, 4/5, 1/5, 30, false, 1, 0⟩], 3/2⟩],
          ⟨[-1], [[1/2]], [1], [1/10], [1], [1], [0], [1]⟩⟩
        = mapHosted (mkState [⟨1, 1, 4/5, 1/5, 30, false, 1, 0⟩]
              [⟨10, 2, [], 3/2⟩]).servers
            (fun x => hostedSpec
              (updDevices (mkState [⟨1, 1, 4/5, 1/5, 30, false, 1, 0⟩]
                [⟨10, 2, [], 3/2⟩]).devices [(1, some 10)])
              [(1, some 10)] x)) :=
  have hnd : (([(⟨10, 2, [], 3/2⟩ : Server)].map (fun s => s.id)).Nodup) := by simp
  have hasg : computeAssignments unitCost .game_theory rngIter 0
      [⟨1, 1, 4/5, 1/5, 30, false, 1, 0⟩] [⟨10, 2, [], 3/2⟩]
      = .ok [(1, some 10)] := by
    norm_num [computeAssignments, gtAssignments, gtBestServer, bestServerBy, bestStep,
      dynamicCost, Device.calculate_utility, Server.calculate_utility,
      Server.get_current_cpu_load, sortByTrustDesc, insertByTrust, acceptDevices,
      dictInsert, unitCost]
  have hok : runIter unitCost .game_theory rngIter 0
      (mkState [⟨1, 1, 4/5, 1/5, 30, false, 1, 0⟩] [⟨10, 2, [], 3/2⟩])
      = .ok ⟨[⟨1, 1, 4/5, 1/5, 30, false, 1, 0⟩],
          [⟨10, 2, [⟨1, 1, 4/5, 1/5, 30, false, 1, 0⟩], 3/2⟩],
          ⟨[-1], [[1/2]], [1], [1/10], [1], [1], [0], [1]⟩⟩ := by
    norm_num [runIter, iterCore, computeAssignments, gtAssignments, gtBestServer,
      bestServerBy, bestStep, dynamicCost, Device.calculate_utility,
      Server.calculate_utility, Server.get_current_cpu_load, sortByTrustDesc,
      insertByTrust, acceptDevices, dictInsert, unitCost, updDevices, mkRow,
      metricsLoop, metricsStep, assignDevicesToServers, assignStep, addToServer,
      Device.update_trust_score, History.empty, History.push, mkState,
      List.foldlM, except_bind_ok, except_pure]
  ⟨⟨hnd, hasg, hok⟩,
    hosted_matches_assignment unitCost .game_theory rngIter 0
      (mkState [⟨1, 1, 4/5, 1/5, 30, false, 1, 0⟩] [⟨10, 2, [], 3/2⟩])
      ⟨[⟨1, 1, 4/5, 1/5, 30, false, 1, 0⟩],
        [⟨10, 2, [⟨1, 1, 4/5, 1/5, 30, false, 1, 0⟩], 3/2⟩],
        ⟨[-1], [[1/2]], [1], [1/10], [1], [1], [0], [1]⟩⟩
      [(1, some 10)] hnd (Or.inl rfl) hasg hok⟩

/-! ## Helper lemmas for the run-level claims -/

theorem appendHead_replicate {α : Type} (n : Nat) (v : α) (hn : 0 < n) :
    appendHead (List.replicate n v) = List.replicate (n + 1) v := by
  cases n with
  | zero => exact absurd hn (by simp)
  | succ m =>
    rw [List.replicate_succ, appendHead, List.replicate_succ']
    simp [List.replicate_succ]

theorem runSim_zero (cost : Nat → Nat → ℚ × ℚ) (alg : Algo)
    (rng : Nat → Nat → Nat) (st : RunState) :
    runSim cost alg rng 0 st = .ok st := rfl

theorem runSim_succ (cost : Nat → Nat → ℚ × ℚ) (alg : Algo)
    (rng : Nat → Nat → Nat) (n : Nat) (st : RunState) :
    runSim cost alg rng (n + 1) st
      = runSim cost alg rng n st >>= (fun s => runIter cost alg rng n s) := by
  unfold runSim
  rw [List.range_succ, List.foldlM_append]
  congr 1
  funext s
  simp [List.foldlM]

theorem runSim_one (cost : Nat → Nat → ℚ × ℚ) (alg : Algo)
    (rng : Nat → Nat → Nat) (st : RunState) :
    runSim cost alg rng 1 st = runIter cost alg rng 0 st := by
  rw [runSim_succ, runSim_zero, except_bind_ok]

theorem metricsLoop_none (cost : Nat → Nat → ℚ × ℚ) (devices : List Device)
    (servers : List Server) (asg : List (Nat × Option Nat))
    (h : ∀ p ∈ asg, p.2 = none) :
    metricsLoop cost devices servers asg = .ok ⟨0, 0, 0, 0, 0⟩ := by
  induction asg with
  | nil => rfl
  | cons p rest ih =>
    have hp := h p (List.mem_cons_self p rest)
    rcases p with ⟨did, v⟩
    simp only at hp
    subst hp
    have hstep : metricsStep cost devices servers ⟨0, 0, 0, 0, 0⟩ (did, none)
        = .ok ⟨0, 0, 0, 0, 0⟩ := rfl
    unfold metricsLoop
    rw [List.foldlM_cons, hstep, except_bind_ok]
    exact ih (fun q hq => h q (List.mem_cons_of_mem _ hq))

theorem assignStep_nil (devices : List Device) (p : Nat × Option Nat) :
    assignStep devices [] p = [] := by
  rcases p with ⟨did, _ | sid⟩
  · rfl
  · rfl

theorem assignDevicesToServers_nil (devices : List Device)
    (asg : List (Nat × Option Nat)) :
    assignDevicesToServers [] devices asg = [] := by
  unfold assignDevicesToServers
  rw [List.map_nil]
  induction asg with
  | nil => rfl
  | cons p rest ih => rw [List.foldl_cons, assignStep_nil]; exact ih

theorem gtAssignments_no_servers (cost : Nat → Nat → ℚ × ℚ)
    (devices : List Device) : gtAssignments cost devices [] = [] := rfl

theorem computeAssignments_greedy_empty (cost : Nat → Nat → ℚ × ℚ)
    (rng : Nat → Nat → Nat) (i : Nat) (devices : List Device) :
    computeAssignments cost .greedy rng i devices []
      = .ok (devices.foldl (fun a d => dictInsert a d.id none) []) := by
  simp [computeAssignments, greedyBestServer, bestServerBy]

theorem dictInsert_values_none (a : List (Nat × Option Nat)) (k : Nat)
    (h : ∀ p ∈ a, p.2 = none) : ∀ p ∈ dictInsert a k none, p.2 = none := by
  intro p hp
  unfold dictInsert at hp
  by_cases hc : a.any (fun q => q.1 = k)
  · rw [if_pos hc] at hp
    rcases List.mem_map.mp hp with ⟨q, hq, hqe⟩
    by_cases hq1 : q.1 = k
    · rw [if_pos hq1] at hqe; rw [← hqe]
    · rw [if_neg hq1] at hqe; rw [← hqe]; exact h q hq
  · rw [if_neg hc] at hp
    rcases List.mem_append.mp hp with hin | hin
    · exact h p hin
    · simp at hin
      rw [hin]

theorem greedy_empty_values_none (devices : List Device) :
    ∀ p ∈ devices.foldl (fun a d => dictInsert a d.id none) [], p.2 = none := by
  have aux : ∀ (l : List Device) (a : List (Nat × Option Nat)),
      (∀ p ∈ a, p.2 = none) →
      ∀ p ∈ l.foldl (fun a d => dictInsert a d.id none) a, p.2 = none := by
    intro l
    induction l with
    | nil => intro a ha p hp; exact ha p hp
    | cons d rest ih =>
      intro a ha p hp
      rw [List.foldl_cons] at hp
      exact ih (dictInsert a d.id none) (dictInsert_values_none a d.id ha) p hp
  exact aux devices [] (by simp)

theorem dictInsert_keys (a : List (Nat × Option Nat)) (k : Nat) (v : Option Nat)
    (k' : Nat) :
    k' ∈ (dictInsert a k v).map (fun p => p.1)
      ↔ k' ∈ a.map (fun p => p.1) ∨ k' = k := by
  unfold dictInsert
  by_cases hc : a.any (fun q => q.1 = k)
  · rw [if_pos hc]
    have hkeys : (a.map (fun p => if p.1 = k then (k, v) else p)).map (fun p => p.1)
        = a.map (fun p => p.1) := by
      rw [List.map_map]
      apply List.map_congr_left
      intro p _
      by_cases hp1 : p.1 = k
      · simp [hp1]
      · simp [hp1]
    rw [hkeys]
    have hkin : k ∈ a.map (fun p => p.1) := by
      rcases List.any_eq_true.mp hc with ⟨q, hq, hqe⟩
      simp at hqe
      exact hqe ▸ List.mem_map_of_mem _ hq
    constructor
    · exact Or.inl
    · rintro (h | rfl)
      · exact h
      · exact hkin
  · rw [if_neg hc]
    rw [List.map_append]
    simp

theorem fold_keys_mono (l : List Device) (f : Device → Option Nat)
    (a : List (Nat × Option Nat)) (k' : Nat)
    (h : k' ∈ a.map (fun p => p.1)) :
    k' ∈ (l.foldl (fun a x => dictInsert a x.id (f x)) a).map (fun p => p.1) := by
  induction l generalizing a with
  | nil => exact h
  | cons x rest ih =>
    rw [List.foldl_cons]
    exact ih _ ((dictInsert_keys a x.id (f x) k').mpr (Or.inl h))

theorem fold_keys_complete (l : List Device) (f : Device → Option Nat)
    (a : List (Nat × Option Nat)) (d : Device) (hd : d ∈ l) :
    d.id ∈ (l.foldl (fun a x => dictInsert a x.id (f x)) a).map (fun p => p.1) := by
  induction l generalizing a with
  | nil => exact absurd hd (by simp)
  | cons x rest ih =>
    rw [List.foldl_cons]
    rcases List.mem_cons.mp hd with rfl | hd'
    · exact fold_keys_mono rest f _ _
        ((dictInsert_keys a d.id (f d) d.id).mpr (Or.inr rfl))
    · exact ih _ hd'

/-! ## C5: greedy/random replication of iteration 0 -/

/-- Every metric history of `h` is the length-`n` constant sequence whose
value is the (unique) iteration-0 entry of `h1`. -/
def constHist (n : Nat) (h1 h : History) : Prop :=
  h.avg_device_utility = List.replicate n (h1.avg_device_utility.headD 0)
  ∧ h.server_loads = List.replicate n (h1.server_loads.headD [])
  ∧ h.avg_trust_honest = List.replicate n (h1.avg_trust_honest.headD 0)
  ∧ h.avg_trust_malicious = List.replicate n (h1.avg_trust_malicious.headD 0)
  ∧ h.completion_ratio = List.replicate n (h1.completion_ratio.headD 0)
  ∧ h.deadline_adherence = List.replicate n (h1.deadline_adherence.headD 0)
  ∧ h.malicious_accepted = List.replicate n (h1.malicious_accepted.headD 0)
  ∧ h.total_energy = List.replicate n (h1.total_energy.headD 0)

theorem constHist_push_empty (r : Row) :
    constHist 1 (History.empty.push r) (History.empty.push r) := by
  unfold constHist History.empty History.push
  norm_num

theorem constHist_replicateHead (n : Nat) (h1 h : History) (hn : 0 < n)
    (hc : constHist n h1 h) : constHist (n + 1) h1 h.replicateHead := by
  obtain ⟨c1, c2, c3, c4, c5, c6, c7, c8⟩ := hc
  unfold constHist History.replicateHead
  rw [c1, c2, c3, c4, c5, c6, c7, c8]
  exact ⟨appendHead_replicate _ _ hn, appendHead_replicate _ _ hn,
    appendHead_replicate _ _ hn, appendHead_replicate _ _ hn,
    appendHead_replicate _ _ hn, appendHead_replicate _ _ hn,
    appendHead_replicate _ _ hn, appendHead_replicate _ _ hn⟩

theorem runSim_one_pushes (cost : Nat → Nat → ℚ × ℚ) (alg : Algo)
    (rng : Nat → Nat → Nat) (devices : List Device) (servers : List Server)
    (st1 : RunState)
    (hok : runSim cost alg rng 1 (mkState devices servers) = .ok st1) :
    ∃ row, st1.hist = History.empty.push row := by
  rw [runSim_one] at hok
  rcases hasg : computeAssignments cost alg rng 0 devices servers with ⟨⟩ | asg
  · rw [runIter_error cost alg rng 0 (mkState devices servers) hasg] at hok
    exact absurd hok (by simp)
  · rw [runIter_decide_branch cost alg rng 0 (mkState devices servers) asg
      (Or.inr rfl) hasg] at hok
    obtain ⟨stats, _, _, _, hhist⟩ := iterCore_ok cost _ st1 asg hok
    exact ⟨_, hhist⟩

/-- C5: under greedy and random, only iteration 0 performs the trust update,
metric computation and assignment application — a successful `n`-iteration
run (`n ≥ 1`) ends in the same device and server state as the 1-iteration
run, and every metric history is the constant length-`n` sequence replicating
iteration 0's value verbatim. -/
theorem greedy_random_replication (cost : Nat → Nat → ℚ × ℚ) (alg : Algo)
    (rng : Nat → Nat → Nat) (n : Nat) (devices : List Device)
    (servers : List Server) (st' : RunState)
    (halg : alg = .greedy ∨ alg = .random) (hn : 0 < n)
    (hok : runSim cost alg rng n (mkState devices servers) = .ok st') :
    ∃ st1, runSim cost alg rng 1 (mkState devices servers) = .ok st1
      ∧ st'.devices = st1.devices ∧ st'.servers = st1.servers
      ∧ constHist n st1.hist st'.hist := by
  have key : ∀ (k : Nat), 0 < k → ∀ stk : RunState,
      runSim cost alg rng k (mkState devices servers) = .ok stk →
      ∃ st1, runSim cost alg rng 1 (mkState devices servers) = .ok st1
        ∧ stk.devices = st1.devices ∧ stk.servers = st1.servers
        ∧ constHist k st1.hist stk.hist := by
    intro k
    induction k with
    | zero => intro hk; exact absurd hk (by simp)
    | succ m ih =>
      intro _ stk hokk
      by_cases hm : m = 0
      · subst hm
        refine ⟨stk, hokk, rfl, rfl, ?_⟩
        obtain ⟨row, hrow⟩ := runSim_one_pushes cost alg rng devices servers stk hokk
        rw [hrow]
        exact constHist_push_empty row
      · have hm' : 0 < m := Nat.pos_of_ne_zero hm
        rw [runSim_succ] at hokk
        rcases hsm : runSim cost alg rng m (mkState devices servers) with ⟨⟩ | stm
        · rw [hsm, except_bind_error] at hokk
          exact absurd hokk (by simp)
        · rw [hsm, except_bind_ok] at hokk
          obtain ⟨st1, h1, hdev, hsrv, hconst⟩ := ih hm' stm hsm
          have hrep := runIter_replicate_branch cost alg rng m stm stk halg hm' hokk
          refine ⟨st1, h1, ?_, ?_, ?_⟩
          · rw [hrep]; exact hdev
          · rw [hrep]; exact hsrv
          · rw [hrep]
            exact constHist_replicateHead m st1.hist stm.hist hm' hconst
  exact key n hn st' hok

/-- Witness for `greedy_random_replication`: a 3-iteration greedy run over
one item and one host. -/
theorem greedy_random_replication_witness :
    ((Algo.greedy = Algo.greedy ∨ Algo.greedy = Algo.random) ∧ 0 < 3
      ∧ runSim unitCost .greedy rngIter 3
          (mkState [⟨1, 1, 4/5, 1/5, 30, false, 1, 0⟩] [⟨10, 2, [], 3/2⟩])
          = .ok ⟨[⟨1, 1, 4/5, 1/5, 30, false, 1, 0⟩],
              [⟨10, 2, [⟨1, 1, 4/5, 1/5, 30, false, 1, 0⟩], 3/2⟩],
              ⟨[-1, -1, -1], [[1/2], [1/2], [1/2]], [1, 1, 1],
               [1/10, 1/10, 1/10], [1, 1, 1], [1, 1, 1], [0, 0, 0],
               [1, 1, 1]⟩⟩)
    ∧ (∃ st1, runSim unitCost .greedy rngIter 1
          (mkState [⟨1, 1, 4/5, 1/5, 30, false, 1, 0⟩] [⟨10, 2, [], 3/2⟩])
          = .ok st1
        ∧ (RunState.devices ⟨[⟨1, 1, 4/5, 1/5, 30, false, 1, 0⟩],
              [⟨10, 2, [⟨1, 1, 4/5, 1/5, 30, false, 1, 0⟩], 3/2⟩],
              ⟨[-1, -1, -1], [[1/2], [1/2], [1/2]], [1, 1, 1],
               [1/10, 1/10, 1/10], [1, 1, 1], [1, 1, 1], [0, 0, 0],
               [1, 1, 1]⟩⟩) = st1.devices
        ∧ (RunState.servers ⟨[⟨1, 1, 4/5, 1/5, 30, false, 1, 0⟩],
              [⟨10, 2, [⟨1, 1, 4/5, 1/5, 30, false, 1, 0⟩], 3/2⟩],
              ⟨[-1, -1, -1], [[1/2], [1/2], [1/2]], [1, 1, 1],
               [1/10, 1/10, 1/10], [1, 1, 1], [1, 1, 1], [0, 0, 0],
               [1, 1, 1]⟩⟩) = st1.servers
        ∧ constHist 3 st1.hist
            (RunState.hist ⟨[⟨1, 1, 4/5, 1/5, 30, false, 1, 0⟩],
              [⟨10, 2, [⟨1, 1, 4/5, 1/5, 30, false, 1, 0⟩], 3/2⟩],
              ⟨[-1, -1, -1], [[1/2], [1/2], [1/2]], [1, 1, 1],
               [1/10, 1/10, 1/10], [1, 1, 1], [1, 1, 1], [0, 0, 0],
               [1, 1, 1]⟩⟩)) :=
  have hok : runSim unitCost .greedy rngIter 3
      (mkState [⟨1, 1, 4/5, 1/5, 30, false, 1, 0⟩] [⟨10, 2, [], 3/2⟩])
      = .ok ⟨[⟨1, 1, 4/5, 1/5, 30, false, 1, 0⟩],
          [⟨10, 2, [⟨1, 1, 4/5, 1/5, 30, false, 1, 0⟩], 3/2⟩],
          ⟨[-1, -1, -1], [[1/2], [1/2], [1/2]], [1, 1, 1],
           [1/10, 1/10, 1/10], [1, 1, 1], [1, 1, 1], [0, 0, 0],
           [1, 1, 1]⟩⟩ := by
    norm_num [runSim, runIter, iterCore, computeAssignments, greedyBestServer,
      bestServerBy, bestStep, updDevices, mkRow, metricsLoop, metricsStep,
      assignDevicesToServers, assignStep, addToServer, dictInsert, dynamicCost,
      Device.calculate_utility, Device.update_trust_score, Server.calculate_utility,
      Server.get_current_cpu_load, History.empty, History.push,
      History.replicateHead, appendHead, mkState, unitCost, rngIter,
      List.foldlM, List.range_succ, except_bind_ok, except_bind_error,
      except_pure]
  ⟨⟨Or.inl rfl, by norm_num, hok⟩,
    greedy_random_replication unitCost .greedy rngIter 3
      [⟨1, 1, 4/5, 1/5, 30, false, 1, 0⟩] [⟨10, 2, [], 3/2⟩]
      ⟨[⟨1, 1, 4/5, 1/5, 30, false, 1, 0⟩],
        [⟨10, 2, [⟨1, 1, 4/5, 1/5, 30, false, 1, 0⟩], 3/2⟩],
        ⟨[-1, -1, -1], [[1/2], [1/2], [1/2]], [1, 1, 1],
         [1/10, 1/10, 1/10], [1, 1, 1], [1, 1, 1], [0, 0, 0],
         [1, 1, 1]⟩⟩
      (Or.inl rfl) (by norm_num) hok⟩

/-! ## C7: empty host population -/

theorem push_completion (h : History) (r : Row) :
    (h.push r).completion_ratio = h.completion_ratio ++ [r.completion_ratio] := rfl

theorem replicateHead_completion (h : History) :
    (h.replicateHead).completion_ratio = appendHead h.completion_ratio := rfl

theorem mkRow_zero_stats_completion (devices' : List Device)
    (servers' : List Server) :
    (mkRow devices' servers' ⟨0, 0, 0, 0, 0⟩).completion_ratio = 0 := by
  by_cases h : devices' = [] <;> simp [mkRow, h]

/-- One iteration over an empty host population (game-theoretic or greedy):
it succeeds, the host population stays empty, and the appended
completion-ratio entry is 0 (no item is assigned to any host). -/
theorem runIter_no_servers (cost : Nat → Nat → ℚ × ℚ) (alg : Algo)
    (rng : Nat → Nat → Nat) (i : Nat) (st : RunState)
    (halg : alg = .game_theory ∨ alg = .greedy) (hsrv : st.servers = []) :
    ∃ st', runIter cost alg rng i st = .ok st'
      ∧ st'.servers = []
      ∧ (st'.hist.completion_ratio = st.hist.completion_ratio ++ [0]
          ∨ ((alg = .greedy ∧ 0 < i)
              ∧ st'.hist.completion_ratio = appendHead st.hist.completion_ratio)) := by
  rcases halg with rfl | rfl
  · -- game theory: every iteration recomputes and records
    have hasg : computeAssignments cost .game_theory rng i st.devices st.servers
        = .ok [] := by
      rw [hsrv]
      simp [computeAssignments, gtAssignments_no_servers]
    have hml : metricsLoop cost (updDevices st.devices []) st.servers [] =
        .ok ⟨0, 0, 0, 0, 0⟩ := metricsLoop_none _ _ _ _ (by simp)
    refine ⟨_, by rw [runIter_decide_branch cost _ rng i st [] (Or.inl rfl) hasg,
        iterCore_if cost st [] ⟨0, 0, 0, 0, 0⟩ hml], ?_, ?_⟩
    · show assignDevicesToServers st.servers (updDevices st.devices []) [] = []
      rw [hsrv, assignDevicesToServers_nil]
    · left
      show (st.hist.push _).completion_ratio = _
      rw [push_completion, mkRow_zero_stats_completion]
  · -- greedy
    have hasg : computeAssignments cost .greedy rng i st.devices st.servers
        = .ok (st.devices.foldl (fun a d => dictInsert a d.id none) []) := by
      rw [hsrv]
      exact computeAssignments_greedy_empty cost rng i st.devices
    by_cases hi : 0 < i
    · refine ⟨{ st with hist := st.hist.replicateHead },
        by rw [runIter_if cost .greedy rng i st _ hasg, if_pos ⟨Or.inl rfl, hi⟩],
        hsrv, ?_⟩
      right
      exact ⟨⟨rfl, hi⟩, replicateHead_completion st.hist⟩
    · have hi0 : i = 0 := by omega
      have hml : metricsLoop cost
          (updDevices st.devices (st.devices.foldl (fun a d => dictInsert a d.id none) []))
          st.servers (st.devices.foldl (fun a d => dictInsert a d.id none) []) =
          .ok ⟨0, 0, 0, 0, 0⟩ :=
        metricsLoop_none _ _ _ _ (greedy_empty_values_none st.devices)
      refine ⟨_, by rw [runIter_decide_branch cost _ rng i st _ (Or.inr hi0) hasg,
          iterCore_if cost st _ ⟨0, 0, 0, 0, 0⟩ hml], ?_, ?_⟩
      · show assignDevicesToServers st.servers _ _ = []
        rw [hsrv, assignDevicesToServers_nil]
      · left
        show (st.hist.push _).completion_ratio = _
        rw [push_completion, mkRow_zero_stats_completion]

/-- C7 (amended): with an empty host population, the game-theoretic and
greedy strategies complete every iteration without error, the host
population stays empty, and every iteration records completion ratio 0 (no
work item is ever assigned to a host); the random strategy, by contrast,
raises (`random.choice` on an empty sequence — see the counterexample). -/
theorem empty_hosts_unassigned (cost : Nat → Nat → ℚ × ℚ) (alg : Algo)
    (rng : Nat → Nat → Nat) (n : Nat) (devices : List Device)
    (halg : alg = .game_theory ∨ alg = .greedy) :
    ∃ st', runSim cost alg rng n (mkState devices []) = .ok st'
      ∧ st'.servers = []
      ∧ st'.hist.completion_ratio = List.replicate n 0 := by
  induction n with
  | zero => exact ⟨mkState devices [], rfl, rfl, rfl⟩
  | succ m ih =>
    obtain ⟨stm, hsm, hsrv, hcr⟩ := ih
    obtain ⟨st', hit, hsrv', hcr'⟩ :=
      runIter_no_servers cost alg rng m stm halg hsrv
    refine ⟨st', ?_, hsrv', ?_⟩
    · rw [runSim_succ, hsm, except_bind_ok, hit]
    · rcases hcr' with h | ⟨⟨_, hm⟩, h⟩
      · rw [h, hcr, ← List.replicate_succ']
      · rw [h, hcr, appendHead_replicate m 0 hm]

/-- C7 counterexample: the claim covers every strategy, but the random
strategy with an empty host population and one work item raises an error
(`random.choice(self.servers)` on an empty list is an `IndexError`) instead
of completing the iteration with an unassigned outcome. -/
theorem random_empty_hosts_error :
    runSim unitCost .random rngIter 1
      (mkState [⟨0, 1, 4/5, 1/5, 30, false, 1, 0⟩] []) = .error () := by
  norm_num [runSim, runIter, computeAssignments, mkState, List.foldlM,
    List.range_succ, List.enum, List.enumFrom, except_bind_ok,
    except_bind_error, except_pure]

/-- Witness for `empty_hosts_unassigned`: a 4-iteration game-theoretic run
with one work item and no hosts. -/
theorem empty_hosts_unassigned_witness :
    (Algo.game_theory = Algo.game_theory ∨ Algo.game_theory = Algo.greedy)
    ∧ ∃ st', runSim unitCost .game_theory rngIter 4
          (mkState [⟨0, 1, 4/5, 1/5, 30, false, 1, 0⟩] []) = .ok st'
        ∧ st'.servers = []
        ∧ st'.hist.completion_ratio = List.replicate 4 0 :=
  ⟨Or.inl rfl,
    empty_hosts_unassigned unitCost .game_theory rngIter 4
      [⟨0, 1, 4/5, 1/5, 30, false, 1, 0⟩] (Or.inl rfl)⟩

/-! ## C10: key-membership trust classification under greedy with no hosts -/

theorem updDevices_all_assigned (devices : List Device)
    (asg : List (Nat × Option Nat))
    (h : ∀ d ∈ devices, d.id ∈ asg.map (fun p => p.1)) :
    updDevices devices asg = devices.map (fun d => d.update_trust_score true) := by
  unfold updDevices
  apply List.map_congr_left
  intro d hd
  congr 1
  exact List.elem_eq_true_of_mem (h d hd)

theorem mkRow_zero_more (devices' : List Device) (servers' : List Server) :
    (mkRow devices' servers' ⟨0, 0, 0, 0, 0⟩).deadline_adherence = 0
    ∧ (mkRow devices' servers' ⟨0, 0, 0, 0, 0⟩).malicious_accepted = 0
    ∧ (mkRow devices' servers' ⟨0, 0, 0, 0, 0⟩).total_energy = 0 := by
  refine ⟨by simp [mkRow], ?_, rfl⟩
  by_cases h : ((devices'.filter (fun d => d.is_malicious)).map
      (fun d => d.trust_score)).length = 0 <;> simp [mkRow, h]

/-- C10: in `Simulation.run` a work item is classified as assigned for the
trust update iff its id is a KEY of the assignment mapping, regardless of the
mapped value. Under greedy with no hosts, every item gets an entry with value
`none`, so every item receives the ASSIGNED-branch trust update, while the
value-`none` entries are skipped by the metrics loop: completion ratio,
deadline adherence, malicious-acceptance and total energy all record 0. -/
theorem greedy_no_host_trust_update (cost : Nat → Nat → ℚ × ℚ)
    (rng : Nat → Nat → Nat) (devices : List Device) (st' : RunState)
    (hok : runIter cost .greedy rng 0 (mkState devices []) = .ok st') :
    computeAssignments cost .greedy rng 0 devices []
        = .ok (devices.foldl (fun a d => dictInsert a d.id none) [])
    ∧ st'.devices = devices.map (fun d => d.update_trust_score true)
    ∧ st'.hist.completion_ratio = [0]
    ∧ st'.hist.deadline_adherence = [0]
    ∧ st'.hist.malicious_accepted = [0]
    ∧ st'.hist.total_energy = [0] := by
  have hasg : computeAssignments cost .greedy rng 0 devices []
      = .ok (devices.foldl (fun a d => dictInsert a d.id none) []) :=
    computeAssignments_greedy_empty cost rng 0 devices
  rw [runIter_decide_branch cost .greedy rng 0 (mkState devices [])
    (devices.foldl (fun a (d : Device) => dictInsert a d.id none) [])
    (Or.inr rfl) (by exact hasg)] at hok
  obtain ⟨stats, hml, hdev, _, hhist⟩ := iterCore_ok cost _ st' _ hok
  have hml0 : metricsLoop cost
      (updDevices (mkState devices []).devices
        (devices.foldl (fun a d => dictInsert a d.id none) []))
      (mkState devices []).servers
      (devices.foldl (fun a d => dictInsert a d.id none) [])
      = .ok ⟨0, 0, 0, 0, 0⟩ :=
    metricsLoop_none _ _ _ _ (greedy_empty_values_none devices)
  have hstats : stats = ⟨0, 0, 0, 0, 0⟩ :=
    Except.ok.inj (hml.symm.trans hml0)
  subst hstats
  have hupd : updDevices (mkState devices []).devices
      (devices.foldl (fun a d => dictInsert a d.id none) [])
      = devices.map (fun d => d.update_trust_score true) :=
    updDevices_all_assigned devices _
      (fun d hd => fold_keys_complete devices (fun _ => none) [] d hd)
  obtain ⟨hadh, hmal, hnrg⟩ := mkRow_zero_more
    (updDevices (mkState devices []).devices
      (devices.foldl (fun a d => dictInsert a d.id none) []))
    (assignDevicesToServers (mkState devices []).servers
      (updDevices (mkState devices []).devices
        (devices.foldl (fun a d => dictInsert a d.id none) []))
      (devices.foldl (fun a d => dictInsert a d.id none) []))
  refine ⟨hasg, by rw [hdev]; exact hupd, ?_, ?_, ?_, ?_⟩
  · rw [hhist, push_completion, mkRow_zero_stats_completion]
    rfl
  · show st'.hist.deadline_adherence = [0]
    rw [hhist]
    show History.empty.deadline_adherence ++ [_] = [0]
    rw [hadh]
    rfl
  · rw [hhist]
    show History.empty.malicious_accepted ++ [_] = [0]
    rw [hmal]
    rfl
  · rw [hhist]
    show History.empty.total_energy ++ [_] = [0]
    rw [hnrg]
    rfl

/-- Witness for `greedy_no_host_trust_update`: one honest and one malicious
item, no hosts — both get the assigned-branch update (the malicious one's
rejection counter increments), while all assigned-only metrics record 0. -/
theorem greedy_no_host_trust_update_witness :
    runIter unitCost .greedy rngIter 0
        (mkState [⟨1, 1, 4/5, 1/5, 30, false, 1, 0⟩,
          ⟨2, 1, 4/5, 1/5, 30, true, 1/10, 0⟩] [])
        = .ok ⟨[⟨1, 1, 4/5, 1/5, 30, false, 1, 0⟩,
            ⟨2, 1, 4/5, 1/5, 30, true, 1/10, 1⟩], [],
            ⟨[0], [[]], [1], [1/10], [0], [0], [0], [0]⟩⟩
    ∧ (computeAssignments unitCost .greedy rngIter 0
          [⟨1, 1, 4/5, 1/5, 30, false, 1, 0⟩, ⟨2, 1, 4/5, 1/5, 30, true, 1/10, 0⟩] []
          = .ok (([⟨1, 1, 4/5, 1/5, 30, false, 1, 0⟩,
              ⟨2, 1, 4/5, 1/5, 30, true, 1/10, 0⟩] : List Device).foldl
              (fun a d => dictInsert a d.id none) [])
        ∧ (RunState.devices ⟨[⟨1, 1, 4/5, 1/5, 30, false, 1, 0⟩,
              ⟨2, 1, 4/5, 1/5, 30, true, 1/10, 1⟩], [],
              ⟨[0], [[]], [1], [1/10], [0], [0], [0], [0]⟩⟩)
            = ([⟨1, 1, 4/5, 1/5, 30, false, 1, 0⟩,
                ⟨2, 1, 4/5, 1/5, 30, true, 1/10, 0⟩] : List Device).map
                (fun d => d.update_trust_score true)
        ∧ (RunState.hist ⟨[⟨1, 1, 4/5, 1/5, 30, false, 1, 0⟩,
              ⟨2, 1, 4/5, 1/5, 30, true, 1/10, 1⟩], [],
              ⟨[0], [[]], [1], [1/10], [0], [0], [0], [0]⟩⟩).completion_ratio = [0]
        ∧ (RunState.hist ⟨[⟨1, 1, 4/5, 1/5, 30, false, 1, 0⟩,
              ⟨2, 1, 4/5, 1/5, 30, true, 1/10, 1⟩], [],
              ⟨[0], [[]], [1], [1/10], [0], [0], [0], [0]⟩⟩).deadline_adherence = [0]
        ∧ (RunState.hist ⟨[⟨1, 1, 4/5, 1/5, 30, false, 1, 0⟩,
              ⟨2, 1, 4/5, 1/5, 30, true, 1/10, 1⟩], [],
              ⟨[0], [[]], [1], [1/10], [0], [0], [0], [0]⟩⟩).malicious_accepted = [0]
        ∧ (RunState.hist ⟨[⟨1, 1, 4/5, 1/5, 30, false, 1, 0⟩,
              ⟨2, 1, 4/5, 1/5, 30, true, 1/10, 1⟩], [],
              ⟨[0], [[]], [1], [1/10], [0], [0], [0], [0]⟩⟩).total_energy = [0]) :=
  have hok : runIter unitCost .greedy rngIter 0
      (mkState [⟨1, 1, 4/5, 1/5, 30, false, 1, 0⟩,
        ⟨2, 1, 4/5, 1/5, 30, true, 1/10, 0⟩] [])
      = .ok ⟨[⟨1, 1, 4/5, 1/5, 30, false, 1, 0⟩,
          ⟨2, 1, 4/5, 1/5, 30, true, 1/10, 1⟩], [],
          ⟨[0], [[]], [1], [1/10], [0], [0], [0], [0]⟩⟩ := by
    norm_num [runIter, iterCore, computeAssignments, greedyBestServer,
      bestServerBy, bestStep, updDevices, mkRow, metricsLoop, metricsStep,
      assignDevicesToServers, assignStep, dictInsert,
      Device.update_trust_score, History.empty, History.push, mkState,
      List.foldlM, except_bind_ok, except_pure]
  ⟨hok, greedy_no_host_trust_update unitCost rngIter
    [⟨1, 1, 4/5, 1/5, 30, false, 1, 0⟩, ⟨2, 1, 4/5, 1/5, 30, true, 1/10, 0⟩]
    ⟨[⟨1, 1, 4/5, 1/5, 30, false, 1, 0⟩,
        ⟨2, 1, 4/5, 1/5, 30, true, 1/10, 1⟩], [],
        ⟨[0], [[]], [1], [1/10], [0], [0], [0], [0]⟩⟩ hok⟩

/-! ## C9: the benchmark aggregator (`run_simulation` in `simulation.py`)

`metric_data = np.array([run[metric] for run in histories])` stacks one row
per trial; `np.mean(metric_data, axis=0)` and `np.std(metric_data, axis=0)`
produce one value per iteration index. Idealizing float arithmetic over
ℚ/ℝ: `np.mean` of a vector is its sum over its length and `np.std` (with the
default `ddof=0`) is the square root of the mean of `|x - mean|²`. -/

/-- Column `t` of the stacked per-trial histories. -/
def colAt (runs : List (List ℚ)) (t : Nat) : List ℚ :=
  runs.map (fun r => r.getD t 0)

/-- `np.mean` of a vector. -/
def npMean (xs : List ℚ) : ℚ := xs.sum / (xs.length : ℚ)

/-- `np.std` of a vector: population standard deviation (`ddof=0`),
`sqrt(mean(|x - mean|²))`. -/
noncomputable def npStd (xs : List ℚ) : ℝ :=
  Real.sqrt (((xs.map (fun x => |x - npMean xs| ^ 2)).sum / (xs.length : ℚ) : ℚ) : ℝ)

/-- The `metric_mean` sequence the aggregator outputs for one metric: one
entry per iteration index of the first trial's history. -/
def aggregateMean (runs : List (List ℚ)) : List ℚ :=
  (List.range (runs.headD []).length).map (fun t => npMean (colAt runs t))

/-- The `metric_std` sequence the aggregator outputs for one metric. -/
noncomputable def aggregateStd (runs : List (List ℚ)) : List ℝ :=
  (List.range (runs.headD []).length).map (fun t => npStd (colAt runs t))

/-- Modelled from the spec's words, for comparison: the arithmetic mean of
`metric[t]` across trials. -/
def specArithMean (runs : List (List ℚ)) (t : Nat) : ℚ :=
  (runs.map (fun r => r.getD t 0)).sum / (runs.length : ℚ)

/-- Modelled from the spec's words, for comparison: the population standard
deviation of `metric[t]` across trials — the square root of the average
squared deviation from the arithmetic mean. -/
noncomputable def specPopStd (runs : List (List ℚ)) (t : Nat) : ℝ :=
  Real.sqrt ((((runs.map (fun r => r.getD t 0)).map
    (fun x => (x - specArithMean runs t) ^ 2)).sum : ℚ) / ((runs.length : ℚ) : ℝ))

theorem npMean_col (runs : List (List ℚ)) (t : Nat) :
    npMean (colAt runs t) = specArithMean runs t := by
  unfold npMean colAt specArithMean
  rw [List.length_map]

theorem npStd_col (runs : List (List ℚ)) (t : Nat) :
    npStd (colAt runs t) = specPopStd runs t := by
  unfold npStd specPopStd
  have hmaps : (colAt runs t).map (fun x => |x - npMean (colAt runs t)| ^ 2)
      = (runs.map (fun r => r.getD t 0)).map
          (fun x => (x - specArithMean runs t) ^ 2) := by
    rw [npMean_col]
    unfold colAt
    apply List.map_congr_left
    intro x _
    rw [sq_abs]
  rw [hmaps]
  congr 1
  show (((_ / ((colAt runs t).length : ℚ)) : ℚ) : ℝ) = _
  rw [Rat.cast_div]
  congr 2
  unfold colAt
  rw [List.length_map]

/-- C9: for any fixed nonempty set of equal-length per-trial metric
histories and any iteration index `t`, the aggregator's `_mean` entry at `t`
is the arithmetic mean of the metric at `t` across trials, and its `_std`
entry at `t` is the population standard deviation of the metric at `t`
across trials. -/
theorem aggregator_mean_std (runs : List (List ℚ)) (L t : Nat)
    (hne : runs ≠ []) (hlen : ∀ r ∈ runs, r.length = L) (ht : t < L) :
    (aggregateMean runs).get? t = some (specArithMean runs t)
    ∧ (aggregateStd runs).get? t = some (specPopStd runs t) := by
  have hhead : (runs.headD []).length = L := by
    rcases runs with _ | ⟨r0, rest⟩
    · exact absurd rfl hne
    · exact hlen r0 (List.mem_cons_self r0 rest)
  constructor
  · unfold aggregateMean
    rw [hhead, List.get?_map, List.get?_range ht]
    simp [npMean_col]
  · unfold aggregateStd
    rw [hhead, List.get?_map, List.get?_range ht]
    simp [npStd_col]

/-- Witness for `aggregator_mean_std`: three trials of two iterations. -/
theorem aggregator_mean_std_witness :
    (([[1, 2], [3, 4], [5, 6]] : List (List ℚ)) ≠ []
      ∧ (∀ r ∈ ([[1, 2], [3, 4], [5, 6]] : List (List ℚ)), r.length = 2)
      ∧ 0 < 2)
    ∧ ((aggregateMean [[1, 2], [3, 4], [5, 6]]).get? 0
        = some (specArithMean [[1, 2], [3, 4], [5, 6]] 0)
      ∧ (aggregateStd [[1, 2], [3, 4], [5, 6]]).get? 0
        = some (specPopStd [[1, 2], [3, 4], [5, 6]] 0)) :=
  ⟨⟨by simp, by intro r hr; simp only [List.mem_cons, List.not_mem_nil, or_false] at hr; rcases hr with rfl | rfl | rfl <;> rfl,
      by norm_num⟩,
    aggregator_mean_std [[1, 2], [3, 4], [5, 6]] 2 0 (by simp)
      (by intro r hr; simp only [List.mem_cons, List.not_mem_nil, or_false] at hr; rcases hr with rfl | rfl | rfl <;> rfl)
      (by norm_num)⟩

end TrustIoT
